import Mathlib

/-!
Verification development for the a2a-server Session Orchestration and
Streaming Tool-Loop Engine (packages/a2a-server/src).

Shallow embedding conventions:
* JavaScript strings are Lean `String`s; JS string truthiness (`if (s)`)
  is embedded as `s ≠ ""`.
* Timestamps (`Date.now()`) are `Int` values passed in explicitly.
* The filesystem is an explicit state: a list of directory paths plus a
  list of `(path, data)` files.  `path.join(a, b)` is embedded as
  `a ++ "/" ++ b`.  JSON (de)serialization of structured file contents is
  embedded by storing the structured value itself in the file entry.
* External collaborators (`@google/gemini-cli-core`: the agent client,
  `executeToolCall`, `partListUnionToString`; `uuidv4`) are not part of
  src/ and are embedded at their boundary: the agent's event stream and
  the tool executor's outcomes are parameters, `partListUnionToString`
  is the identity on the string-embedded message content, and generated
  uuids / random ids are parameters or fixed placeholder strings.
* `res.write(frame)` (emission on the outbound stream) is recorded as an
  action in an explicit trace; an emission is the call itself, whether or
  not the client still reads.
-/

/-- JS whitespace for `String.prototype.trim` (the characters relevant
    here). -/
def jsWs (c : Char) : Bool :=
  c = ' ' || c = '\t' || c = '\n' || c = '\r'

/-- Executable model of JS `s.trim()`: strip whitespace from both ends. -/
def jsTrim (s : String) : String :=
  ⟨((s.data.dropWhile jsWs).reverse.dropWhile jsWs).reverse⟩

/-- Executable model of JS `s.startsWith(p)`. -/
def jsStartsWith (s p : String) : Bool :=
  p.data.isPrefixOf s.data

/-- Executable model of JS `s.substring(0, n)`. -/
def jsTake (s : String) (n : Nat) : String :=
  ⟨s.data.take n⟩

/-- A `@google/genai` message part, restricted to the constructors the
    server code actually builds or inspects. -/
inductive GPart where
  | text (s : String)
  | inlineData (data : String) (mimeType : String)
  | functionCall (name : String) (args : String) (id : Option String)
  | functionResponse (id : Option String) (name : String) (output : String)
  | rawPart (tag : String)
deriving DecidableEq, Repr

/-- Role of a client-history entry produced by `convertToClientHistory`. -/
inductive Role where
  | user
  | model
deriving DecidableEq, Repr

/-- One entry of the agent-client history: `{ role, parts }`. -/
structure HistEntry where
  role : Role
  parts : List GPart
deriving DecidableEq, Repr

/-- The `type` discriminator of a ConversationRecord message. -/
inductive MsgType where
  | info
  | error
  | warning
  | user
  | gemini
deriving DecidableEq, Repr

/-- The `result` field of a recorded tool call: a string, an array of
    parts, or a single non-array part (the source branches on exactly
    these three shapes). -/
inductive ResVal where
  | str (s : String)
  | arr (ps : List GPart)
  | single (p : GPart)
deriving DecidableEq, Repr

/-- JS truthiness of an optional `result` value: absent is falsy, an
    empty string is falsy, arrays and objects are truthy. -/
def resTruthy : Option ResVal → Bool
  | none => false
  | some (.str s) => s ≠ ""
  | some (.arr _) => true
  | some (.single _) => true

/-- A recorded tool call of a ConversationRecord 'gemini' message. -/
structure ToolCallRecord where
  id : Option String
  name : String
  args : String
  result : Option ResVal
deriving DecidableEq, Repr

/-- JS truthiness of the optional tool-call id (`toolCall.id && ...`). -/
def idTruthy : Option String → Bool
  | none => false
  | some s => s ≠ ""

/-- One message of a ConversationRecord.  The external `PartListUnion`
    content is embedded as the string `partListUnionToString` returns;
    a message without a `toolCalls` field is embedded with the empty
    list. -/
structure ConvMessage where
  type : MsgType
  content : String
  toolCalls : List ToolCallRecord
deriving DecidableEq, Repr

/-- The function-call part built for one recorded tool call:
    `{ functionCall: { name, args, ...(toolCall.id && { id }) } }`. -/
def mkFunctionCall (tc : ToolCallRecord) : GPart :=
  .functionCall tc.name tc.args (if idTruthy tc.id then tc.id else none)

/-- The function-response parts contributed by one recorded tool call
    inside the `if (toolCall.result)` body of `convertToClientHistory`:
    a string result becomes one functionResponse part, an array result is
    spread as-is, any other truthy result is pushed unchanged. -/
def respPartsOf (tc : ToolCallRecord) : List GPart :=
  if resTruthy tc.result then
    match tc.result with
    | some (.str s) => [.functionResponse tc.id tc.name s]
    | some (.arr ps) => ps
    | some (.single p) => [p]
    | none => []
  else []

/-- Embedding of `convertToClientHistory`
    (packages/a2a-server/src/utils/historyConverter.ts).
    `partListUnionToString` is the identity on the embedded content. -/
def convertToClientHistory : List ConvMessage → List HistEntry
  | [] => []
  | msg :: rest =>
    match msg.type with
    | .info => convertToClientHistory rest
    | .error => convertToClientHistory rest
    | .warning => convertToClientHistory rest
    | .user =>
      let contentString := msg.content
      if jsStartsWith (jsTrim contentString) "/" || jsStartsWith (jsTrim contentString) "?" then
        convertToClientHistory rest
      else
        ⟨.user, [.text contentString]⟩ :: convertToClientHistory rest
    | .gemini =>
      if msg.toolCalls.length > 0 then
        let contentString := msg.content
        let modelParts : List GPart :=
          (if msg.content ≠ "" && jsTrim contentString ≠ "" then
            [.text contentString] else [])
          ++ msg.toolCalls.map mkFunctionCall
        let functionResponseParts : List GPart := msg.toolCalls.flatMap respPartsOf
        ⟨.model, modelParts⟩ ::
          ((if functionResponseParts.length > 0 then
              [(⟨.user, functionResponseParts⟩ : HistEntry)] else [])
           ++ convertToClientHistory rest)
      else
        let contentString := msg.content
        (if msg.content ≠ "" && jsTrim contentString ≠ "" then
          [(⟨.model, [.text contentString]⟩ : HistEntry)] else [])
        ++ convertToClientHistory rest

/-- A message dropped by the converter: informational/error/warning
    entries, and user entries whose trimmed content starts with the
    command characters '/' or '?'. -/
def droppedEntry (m : ConvMessage) : Bool :=
  match m.type with
  | .info => true
  | .error => true
  | .warning => true
  | .user => jsStartsWith (jsTrim m.content) "/" || jsStartsWith (jsTrim m.content) "?"
  | .gemini => false

/-- A 'gemini' entry carrying exactly one tool call whose result yields
    at least one function-response part (a matching result). -/
def pairedTurn (m : ConvMessage) : Bool :=
  m.type = .gemini &&
    (match m.toolCalls with
     | [tc] => respPartsOf tc ≠ []
     | _ => false)

/-- The model-role entry the converter builds for a gemini message with
    tool calls. -/
def modelEntryOf (m : ConvMessage) : HistEntry :=
  ⟨.model,
    (if m.content ≠ "" && jsTrim m.content ≠ "" then [GPart.text m.content] else [])
    ++ m.toolCalls.map mkFunctionCall⟩

/-- The user-role function-response entry the converter builds for a
    gemini message with tool calls. -/
def respEntryOf (m : ConvMessage) : HistEntry :=
  ⟨.user, m.toolCalls.flatMap respPartsOf⟩

example :
    convertToClientHistory
      [⟨.gemini, "hi", [⟨some "1", "t", "a", some (.str "ok")⟩]⟩] =
      [⟨.model, [.text "hi", .functionCall "t" "a" (some "1")]⟩,
       ⟨.user, [.functionResponse (some "1") "t" "ok"]⟩] := by
  decide

example :
    convertToClientHistory [⟨.user, " /help", []⟩, ⟨.info, "x", []⟩] = [] := by
  decide

lemma pairedTurn_shape (m : ConvMessage) (h : pairedTurn m = true) :
    m.type = .gemini ∧ ∃ tc, m.toolCalls = [tc] ∧ respPartsOf tc ≠ [] := by
  unfold pairedTurn at h
  rcases m with ⟨t, c, tcs⟩
  cases t <;> simp_all
  match tcs, h with
  | [tc], h => exact ⟨tc, rfl, by simpa using h⟩

lemma droppedEntry_not_paired (m : ConvMessage) (h : droppedEntry m = true) :
    pairedTurn m = false := by
  unfold droppedEntry at h
  unfold pairedTurn
  rcases m with ⟨t, c, tcs⟩
  cases t <;> simp_all

lemma convert_dropped_cons (m : ConvMessage) (rest : List ConvMessage)
    (h : droppedEntry m = true) :
    convertToClientHistory (m :: rest) = convertToClientHistory rest := by
  unfold droppedEntry at h
  rcases m with ⟨t, c, tcs⟩
  cases t <;> simp_all [convertToClientHistory]

lemma convert_paired_cons (m : ConvMessage) (rest : List ConvMessage)
    (h : pairedTurn m = true) :
    convertToClientHistory (m :: rest) =
      modelEntryOf m :: respEntryOf m :: convertToClientHistory rest := by
  obtain ⟨hg, tc, htc, hresp⟩ := pairedTurn_shape m h
  rcases m with ⟨t, c, tcs⟩
  simp only at hg htc
  subst hg htc
  simp only [convertToClientHistory, List.length_cons, List.length_nil]
  have hlen : (0 : Nat) < 0 + 1 := Nat.zero_lt_one
  simp only [if_pos (by omega : (0 : Nat) + 1 > 0)]
  have hfr : ([tc].flatMap respPartsOf) = respPartsOf tc := by
    simp [List.flatMap]
  have : ([tc].flatMap respPartsOf).length > 0 := by
    rw [hfr]
    exact List.length_pos.mpr hresp
  rw [if_pos this]
  simp [modelEntryOf, respEntryOf]

lemma convert_filter_flatMap (msgs : List ConvMessage)
    (h : ∀ m ∈ msgs, droppedEntry m = true ∨ pairedTurn m = true) :
    convertToClientHistory msgs =
      (msgs.filter pairedTurn).flatMap
        (fun m => [modelEntryOf m, respEntryOf m]) := by
  induction msgs with
  | nil => rfl
  | cons m rest ih =>
    have hm := h m (List.mem_cons_self m rest)
    have hrest : ∀ x ∈ rest, droppedEntry x = true ∨ pairedTurn x = true :=
      fun x hx => h x (List.mem_cons_of_mem m hx)
    rcases hm with hd | hp
    · rw [convert_dropped_cons m rest hd, ih hrest,
        List.filter_cons_of_neg (by simp [droppedEntry_not_paired m hd])]
    · rw [convert_paired_cons m rest hp, ih hrest,
        List.filter_cons_of_pos hp]
      simp

lemma pair_flatMap_roles (l : List ConvMessage) :
    ((l.flatMap (fun m => [modelEntryOf m, respEntryOf m])).map HistEntry.role) =
      (List.replicate l.length [Role.model, Role.user]).flatten := by
  induction l with
  | nil => rfl
  | cons x xs ih =>
    simp only [List.flatMap_cons, List.length_cons, List.replicate_succ,
      List.flatten, List.map_append, ih]
    rfl

lemma pair_flatMap_length (l : List ConvMessage) :
    (l.flatMap (fun m => [modelEntryOf m, respEntryOf m])).length =
      2 * l.length := by
  induction l with
  | nil => rfl
  | cons x xs ih =>
    simp only [List.flatMap_cons, List.length_append, List.length_cons, ih]
    simp
    omega

/-- C4: for a Conversation Record whose messages are each either an
    administrative/command entry (info/error/warning, or a user entry whose
    trimmed text begins with '/' or '?') or a 'gemini' entry with exactly
    one tool call carrying a matching (non-empty) result,
    `convertToClientHistory` returns exactly the N model-role entries and
    N user-role function-response entries of the N paired turns, strictly
    alternating model/user, and the administrative/command entries
    contribute nothing to the output. -/
theorem convert_paired_history (msgs : List ConvMessage)
    (h : ∀ m ∈ msgs, droppedEntry m = true ∨ pairedTurn m = true) :
    convertToClientHistory msgs =
      (msgs.filter pairedTurn).flatMap
        (fun m => [modelEntryOf m, respEntryOf m]) ∧
    ((convertToClientHistory msgs).map HistEntry.role) =
      (List.replicate (msgs.filter pairedTurn).length
        [Role.model, Role.user]).flatten ∧
    (convertToClientHistory msgs).length =
      2 * (msgs.filter pairedTurn).length := by
  have h1 := convert_filter_flatMap msgs h
  exact ⟨h1, by rw [h1]; exact pair_flatMap_roles _,
    by rw [h1]; exact pair_flatMap_length _⟩

/-- Witness for C4 at a concrete record: one info entry, two paired
    assistant turns, one command-like user entry. -/
theorem convert_paired_history_witness :
    (∀ m ∈ ([⟨.info, "note", []⟩,
             ⟨.gemini, "hi", [⟨some "1", "t", "a", some (.str "ok")⟩]⟩,
             ⟨.user, " /help", []⟩,
             ⟨.gemini, "", [⟨none, "u", "b", some (.arr [.text "r"])⟩]⟩] :
              List ConvMessage),
        droppedEntry m = true ∨ pairedTurn m = true) ∧
    convertToClientHistory
        [⟨.info, "note", []⟩,
         ⟨.gemini, "hi", [⟨some "1", "t", "a", some (.str "ok")⟩]⟩,
         ⟨.user, " /help", []⟩,
         ⟨.gemini, "", [⟨none, "u", "b", some (.arr [.text "r"])⟩]⟩] =
      [⟨.model, [.text "hi", .functionCall "t" "a" (some "1")]⟩,
       ⟨.user, [.functionResponse (some "1") "t" "ok"]⟩,
       ⟨.model, [.functionCall "u" "b" none]⟩,
       ⟨.user, [.text "r"]⟩] := by
  constructor
  · decide
  · have := convert_paired_history
      [⟨.info, "note", []⟩,
       ⟨.gemini, "hi", [⟨some "1", "t", "a", some (.str "ok")⟩]⟩,
       ⟨.user, " /help", []⟩,
       ⟨.gemini, "", [⟨none, "u", "b", some (.arr [.text "r"])⟩]⟩]
      (by decide)
    rw [this.1]
    decide

/-- The `ToolCallRequestInfo` as buffered by the loop (the fields the server
    reads: callId, name, args). -/
structure ToolCallRequestInfo where
  callId : String
  name : String
  args : String
deriving DecidableEq, Repr

/-- The response object of a completed external tool call
    (`completedToolCall.response`). -/
structure ToolResponse where
  error : Option String
  resultDisplay : Option String
  responseParts : List GPart
deriving DecidableEq, Repr

/-- Outcome of one external `executeToolCall` invocation: a returned
    response, or a thrown error message. -/
inductive ToolOutcome where
  | ok (resp : ToolResponse)
  | threw (message : String)
deriving DecidableEq, Repr

/-- One event of the agent's output stream, as classified by the loop.
    `errorEv` carries `event.value?.error?.message`; event types the loop
    does not branch on are `otherEv`. -/
inductive AgentEvent where
  | content (value : String)
  | thought (value : String)
  | toolCallRequest (tc : ToolCallRequestInfo)
  | errorEv (message : Option String)
  | finished
  | otherEv
deriving DecidableEq, Repr

/-- One outbound SSE frame written by the server (`res.write`). -/
inductive OutEvent where
  | sessionEv (sessionId : String) (workDir : String)
  | messageIdEv (messageId : String)
  | textEv (content : String) (messageId : String)
  | thoughtEv (thought : String) (messageId : String)
  | toolCallEv (id : String) (name : String)
  | toolExecutingEv (toolCallId : String) (name : String)
  | toolResultEv (toolCallId : String) (name : String) (success : Bool)
      (result : Option String) (error : Option String)
  | errorOut (error : String)
  | doneEv
deriving DecidableEq, Repr

/-- One observable action of the tool-execution loop, in program order:
    an outbound frame, the start-of-turn log point (`turnCount` after its
    increment), an invocation of the external tool executor, or a read of
    the cancellation signal that returned aborted. -/
inductive LoopAction where
  | emit (e : OutEvent)
  | startTurn (n : Nat)
  | invokeTool (callId : String) (name : String)
  | observeAbort
deriving DecidableEq, Repr

/-- The per-turn environment: `agent t req` is the (finite) event stream
    `task.geminiClient.sendMessageStream` yields on turn `t` for request
    `req`; `executor k tc` is the outcome of the k-th external
    `executeToolCall` invocation of this call; `aborted n` is the value of
    `signal.aborted` at its n-th read. -/
structure LoopEnv where
  agent : Nat → List GPart → List AgentEvent
  executor : Nat → ToolCallRequestInfo → ToolOutcome
  aborted : Nat → Bool

/-- Result of consuming one agent stream (`for await (const event of
    stream)`): either the stream was drained (`proceed`, with the buffered
    tool-call requests, the trace of this phase, the updated accumulated
    content and the next signal-read index), or the whole
    `processMessageWithToolLoop` call returned from inside the loop
    (`halted`: mid-stream abort, or an agent error event). -/
inductive StreamStep where
  | proceed (buffer : List ToolCallRequestInfo) (trace : List LoopAction)
      (fullContent : String) (checkIdx : Nat)
  | halted (trace : List LoopAction) (fullContent : String)
deriving Repr

/-- Prepend an action to the trace of a stream step (the `res.write`
    performed before continuing the `for await` loop). -/
def pushAct (a : LoopAction) : StreamStep → StreamStep
  | .proceed b tr c i => .proceed b (a :: tr) c i
  | .halted tr c => .halted (a :: tr) c

/-- Embedding of the stream-consuming loop of `processMessageWithToolLoop`
    (chat-api.ts lines 640-700).  Each received event first re-reads
    `signal.aborted`; an aborted read writes an `error` frame
    ('Request cancelled') and returns.  Content deltas accumulate and are
    forwarded when non-empty, thoughts are forwarded, tool-call requests
    are buffered and forwarded, an agent error event writes an `error`
    frame and returns, `Finished` and other events only drain. -/
def consumeStream (env : LoopEnv) (promptId : String) :
    List AgentEvent → Nat → String → List ToolCallRequestInfo → StreamStep
  | [], checkIdx, fullContent, buffer => .proceed buffer [] fullContent checkIdx
  | ev :: rest, checkIdx, fullContent, buffer =>
    if env.aborted checkIdx then
      .halted [.observeAbort, .emit (.errorOut "Request cancelled")] fullContent
    else
      match ev with
      | .content value =>
        if value ≠ "" then
          pushAct (.emit (.textEv value promptId))
            (consumeStream env promptId rest (checkIdx + 1)
              (fullContent ++ value) buffer)
        else
          consumeStream env promptId rest (checkIdx + 1) fullContent buffer
      | .thought value =>
        pushAct (.emit (.thoughtEv value promptId))
          (consumeStream env promptId rest (checkIdx + 1) fullContent buffer)
      | .toolCallRequest tc =>
        pushAct (.emit (.toolCallEv
            (if tc.callId = "" then "<uuid>" else tc.callId)
            (if tc.name = "" then "unknown" else tc.name)))
          (consumeStream env promptId rest (checkIdx + 1) fullContent
            (buffer ++ [tc]))
      | .errorEv message =>
        .halted [.emit (.errorOut (message.getD "Unknown error"))] fullContent
      | .finished =>
        consumeStream env promptId rest (checkIdx + 1) fullContent buffer
      | .otherEv =>
        consumeStream env promptId rest (checkIdx + 1) fullContent buffer

/-- Embedding of the tool-execution phase (chat-api.ts lines 713-770):
    for each buffered request, write `tool_executing`, invoke the external
    executor, and write a `tool_result`; a thrown invocation yields a
    failed `tool_result` and a textual error part instead of response
    parts.  Returns the trace, the collected response parts, and the next
    executor invocation index. -/
def execTools (env : LoopEnv) :
    List ToolCallRequestInfo → Nat → List LoopAction × List GPart × Nat
  | [], invokeIdx => ([], [], invokeIdx)
  | requestInfo :: rest, invokeIdx =>
    let head : List LoopAction :=
      [.emit (.toolExecutingEv requestInfo.callId requestInfo.name),
       .invokeTool requestInfo.callId requestInfo.name]
    match env.executor invokeIdx requestInfo with
    | .ok resp =>
      let r := execTools env rest (invokeIdx + 1)
      (head
        ++ [.emit (.toolResultEv requestInfo.callId requestInfo.name
              resp.error.isNone resp.resultDisplay resp.error)]
        ++ r.1,
       resp.responseParts ++ r.2.1, r.2.2)
    | .threw message =>
      let r := execTools env rest (invokeIdx + 1)
      (head
        ++ [.emit (.toolResultEv requestInfo.callId requestInfo.name
              false none (some message))]
        ++ r.1,
       (GPart.text ("Error executing tool " ++ requestInfo.name ++ ": "
          ++ message)) :: r.2.1, r.2.2)

/-- The `MAX_TURNS` constant of `processMessageWithToolLoop`. -/
def MAX_TURNS : Nat := 50

/-- The code after the `while` loop: reaching the turn budget writes a
    terminal `error` frame. -/
def postLoop (turnCount : Nat) : List LoopAction :=
  if turnCount ≥ MAX_TURNS then
    [.emit (.errorOut "Maximum conversation turns reached")]
  else []

/-- The request for the next turn after tool execution: the collected
    tool response parts, or the all-failed fallback text when none were
    collected. -/
def nextReqOf (parts : List GPart) : List GPart :=
  if parts.isEmpty then
    [.text "All tool calls failed. Please try a different approach."]
  else parts

/-- Embedding of the `while (turnCount < MAX_TURNS)` loop of
    `processMessageWithToolLoop`.  `fuel` is the structural recursion
    measure; the entry point passes `fuel = MAX_TURNS` with
    `turnCount = 0`, so fuel runs out exactly when the loop guard fails.
    Each iteration increments `turnCount`, reads the signal (an aborted
    read breaks), streams the agent's turn, and either finishes (no tool
    calls), halts (mid-stream abort or agent error), or executes the
    buffered tool calls and continues with the collected response parts
    (or the all-failed fallback text). -/
def runTurns (env : LoopEnv) (promptId : String) :
    Nat → Nat → Nat → Nat → List GPart → String → List LoopAction × String
  | 0, turnCount, _, _, _, fullContent => (postLoop turnCount, fullContent)
  | fuel + 1, turnCount, checkIdx, invokeIdx, currentRequest, fullContent =>
    if turnCount < MAX_TURNS then
      let tc := turnCount + 1
      if env.aborted checkIdx then
        (LoopAction.observeAbort :: postLoop tc, fullContent)
      else
        match consumeStream env promptId (env.agent tc currentRequest)
            (checkIdx + 1) fullContent [] with
        | .halted tr c => (LoopAction.startTurn tc :: tr, c)
        | .proceed buffer tr c checkIdx' =>
          if buffer.isEmpty then
            (LoopAction.startTurn tc :: (tr ++ postLoop tc), c)
          else
            let e := execTools env buffer invokeIdx
            let r := runTurns env promptId fuel tc checkIdx' e.2.2 (nextReqOf e.2.1) c
            (LoopAction.startTurn tc :: (tr ++ e.1 ++ r.1), r.2)
    else (postLoop turnCount, fullContent)

/-- Embedding of `processMessageWithToolLoop` (chat-api.ts lines
    606-799): returns the action trace and the returned `fullContent`. -/
def processMessageWithToolLoop (env : LoopEnv) (promptId : String)
    (messageParts : List GPart) : List LoopAction × String :=
  runTurns env promptId MAX_TURNS 0 0 0 messageParts ""

/-- The tool-call requests carried by an agent event stream, in order. -/
def toolCallsOf : List AgentEvent → List ToolCallRequestInfo
  | [] => []
  | .toolCallRequest tc :: rest => tc :: toolCallsOf rest
  | _ :: rest => toolCallsOf rest

/-- True when the stream carries no agent error event. -/
def noErrorEv (evs : List AgentEvent) : Bool :=
  evs.all fun e => match e with | .errorEv _ => false | _ => true

/-- True when a trace consists only of outbound frames. -/
def emitOnly (l : List LoopAction) : Bool :=
  l.all fun a => match a with | .emit _ => true | _ => false

/-- The start-of-turn marker. -/
def isStartTurn : LoopAction → Bool
  | .startTurn _ => true
  | _ => false

/-- Number of loop iterations recorded in a trace. -/
def countStartTurns (l : List LoopAction) : Nat :=
  l.countP isStartTurn

lemma getLast?_cons_append_append {α : Type} (x : α) (l1 l2 l3 : List α)
    (a : α) (h : l3.getLast? = some a) :
    (x :: (l1 ++ l2 ++ l3)).getLast? = some a := by
  rw [← List.singleton_append, List.getLast?_append, List.getLast?_append, h]
  rfl

lemma emitOnly_countStartTurns (l : List LoopAction)
    (h : emitOnly l = true) : countStartTurns l = 0 := by
  rw [countStartTurns, List.countP_eq_zero]
  intro a ha
  have := (List.all_eq_true.mp h) a ha
  cases a <;> simp_all [isStartTurn]

lemma consumeStream_proceed (env : LoopEnv) (promptId : String)
    (hab : ∀ n, env.aborted n = false) :
    ∀ (evs : List AgentEvent), noErrorEv evs = true →
    ∀ (checkIdx : Nat) (fullContent : String)
      (buffer : List ToolCallRequestInfo),
    ∃ tr c i,
      consumeStream env promptId evs checkIdx fullContent buffer =
        .proceed (buffer ++ toolCallsOf evs) tr c i ∧ emitOnly tr = true := by
  intro evs
  induction evs with
  | nil =>
    intro _ checkIdx fullContent buffer
    exact ⟨[], fullContent, checkIdx, by simp [consumeStream, toolCallsOf], rfl⟩
  | cons ev rest ih =>
    intro hne checkIdx fullContent buffer
    have hner : noErrorEv rest = true := by
      simp only [noErrorEv, List.all_cons, Bool.and_eq_true] at hne
      exact hne.2
    cases ev with
    | content value =>
      by_cases hv : value = ""
      · obtain ⟨tr, c, i, heq, hem⟩ :=
          ih hner (checkIdx + 1) fullContent buffer
        refine ⟨tr, c, i, ?_, hem⟩
        simp [consumeStream, hab checkIdx, hv, toolCallsOf, heq]
      · obtain ⟨tr, c, i, heq, hem⟩ :=
          ih hner (checkIdx + 1) (fullContent ++ value) buffer
        refine ⟨.emit (.textEv value promptId) :: tr, c, i, ?_, ?_⟩
        · simp [consumeStream, hab checkIdx, hv, toolCallsOf, heq, pushAct]
        · simpa [emitOnly] using hem
    | thought value =>
      obtain ⟨tr, c, i, heq, hem⟩ := ih hner (checkIdx + 1) fullContent buffer
      refine ⟨.emit (.thoughtEv value promptId) :: tr, c, i, ?_, ?_⟩
      · simp [consumeStream, hab checkIdx, toolCallsOf, heq, pushAct]
      · simpa [emitOnly] using hem
    | toolCallRequest tc =>
      obtain ⟨tr, c, i, heq, hem⟩ :=
        ih hner (checkIdx + 1) fullContent (buffer ++ [tc])
      refine ⟨.emit (.toolCallEv (if tc.callId = "" then "<uuid>" else tc.callId)
          (if tc.name = "" then "unknown" else tc.name)) :: tr, c, i, ?_, ?_⟩
      · simp [consumeStream, hab checkIdx, heq, toolCallsOf, pushAct,
          List.append_assoc]
      · simpa [emitOnly] using hem
    | errorEv message =>
      simp [noErrorEv, List.all_cons] at hne
    | finished =>
      obtain ⟨tr, c, i, heq, hem⟩ := ih hner (checkIdx + 1) fullContent buffer
      exact ⟨tr, c, i, by simp [consumeStream, hab checkIdx, toolCallsOf, heq], hem⟩
    | otherEv =>
      obtain ⟨tr, c, i, heq, hem⟩ := ih hner (checkIdx + 1) fullContent buffer
      exact ⟨tr, c, i, by simp [consumeStream, hab checkIdx, toolCallsOf, heq], hem⟩

lemma execTools_no_startTurn (env : LoopEnv) :
    ∀ (buf : List ToolCallRequestInfo) (invokeIdx : Nat),
      countStartTurns (execTools env buf invokeIdx).1 = 0 := by
  intro buf
  induction buf with
  | nil => intro invokeIdx; rfl
  | cons r rest ih =>
    intro invokeIdx
    cases hx : env.executor invokeIdx r with
    | ok resp =>
      simp only [execTools, hx]
      simp only [countStartTurns, List.countP_append, List.countP_cons]
      have := ih (invokeIdx + 1)
      simp only [countStartTurns] at this
      simp [this, isStartTurn]
    | threw message =>
      simp only [execTools, hx]
      simp only [countStartTurns, List.countP_append, List.countP_cons]
      have := ih (invokeIdx + 1)
      simp only [countStartTurns] at this
      simp [this, isStartTurn]

lemma runTurns_step_tools (env : LoopEnv) (promptId : String)
    (fuel turnCount checkIdx invokeIdx : Nat) (req : List GPart)
    (content : String) (hlt : turnCount < MAX_TURNS)
    (hab0 : env.aborted checkIdx = false)
    (buffer : List ToolCallRequestInfo) (tr : List LoopAction) (c : String)
    (i : Nat)
    (heq : consumeStream env promptId (env.agent (turnCount + 1) req)
      (checkIdx + 1) content [] = .proceed buffer tr c i)
    (hbuf : buffer ≠ []) :
    runTurns env promptId (fuel + 1) turnCount checkIdx invokeIdx req
        content =
      (LoopAction.startTurn (turnCount + 1) ::
        (tr ++ (execTools env buffer invokeIdx).1 ++
          (runTurns env promptId fuel (turnCount + 1) i
            (execTools env buffer invokeIdx).2.2
            (nextReqOf (execTools env buffer invokeIdx).2.1) c).1),
       (runTurns env promptId fuel (turnCount + 1) i
          (execTools env buffer invokeIdx).2.2
          (nextReqOf (execTools env buffer invokeIdx).2.1) c).2) := by
  simp only [runTurns, if_pos hlt, hab0, Bool.false_eq_true, if_false, heq]
  rw [if_neg (by simpa [List.isEmpty_iff] using hbuf)]

lemma runTurns_budget (env : LoopEnv) (promptId : String)
    (hab : ∀ n, env.aborted n = false)
    (hag : ∀ t req, noErrorEv (env.agent t req) = true ∧
      toolCallsOf (env.agent t req) ≠ []) :
    ∀ (fuel turnCount checkIdx invokeIdx : Nat) (req : List GPart)
      (content : String), turnCount + fuel = MAX_TURNS →
    countStartTurns
        (runTurns env promptId fuel turnCount checkIdx invokeIdx req content).1
      = fuel ∧
    (runTurns env promptId fuel turnCount checkIdx invokeIdx req
        content).1.getLast? =
      some (.emit (.errorOut "Maximum conversation turns reached")) := by
  intro fuel
  induction fuel with
  | zero =>
    intro turnCount checkIdx invokeIdx req content hsum
    have h50 : turnCount = MAX_TURNS := by omega
    subst h50
    exact ⟨rfl, rfl⟩
  | succ fuel ih =>
    intro turnCount checkIdx invokeIdx req content hsum
    have hlt : turnCount < MAX_TURNS := by omega
    obtain ⟨tr, c, i, heq, hem⟩ :=
      consumeStream_proceed env promptId hab
        (env.agent (turnCount + 1) req) (hag (turnCount + 1) req).1
        (checkIdx + 1) content []
    rw [List.nil_append] at heq
    have hbuf : toolCallsOf (env.agent (turnCount + 1) req) ≠ [] :=
      (hag (turnCount + 1) req).2
    rw [runTurns_step_tools env promptId fuel turnCount checkIdx invokeIdx
      req content hlt (hab checkIdx) _ tr c i heq hbuf]
    have h2 := execTools_no_startTurn env
      (toolCallsOf (env.agent (turnCount + 1) req)) invokeIdx
    generalize hE : execTools env (toolCallsOf (env.agent (turnCount + 1) req))
      invokeIdx = E at h2
    obtain ⟨ihc, ihl⟩ :=
      ih (turnCount + 1) i E.2.2 (nextReqOf E.2.1) c (by omega)
    constructor
    · have h1 := emitOnly_countStartTurns tr hem
      simp only [countStartTurns, List.countP_cons, List.countP_append] at *
      simp [h1, h2, ihc, isStartTurn]
    · exact getLast?_cons_append_append _ _ _ _ _ ihl

/-- C1: for an agent that requests at least one tool call on every turn
    (and never emits an agent error event), with no cancellation, the
    tool-execution loop runs exactly MAX_TURNS (50) turns and its trace
    ends with the terminal budget-exhaustion `error` frame; it always
    terminates (the embedding is a total function). -/
theorem loop_turn_budget (env : LoopEnv) (promptId : String)
    (parts : List GPart)
    (hab : ∀ n, env.aborted n = false)
    (hag : ∀ t req, noErrorEv (env.agent t req) = true ∧
      toolCallsOf (env.agent t req) ≠ []) :
    countStartTurns (processMessageWithToolLoop env promptId parts).1 =
      MAX_TURNS ∧
    (processMessageWithToolLoop env promptId parts).1.getLast? =
      some (.emit (.errorOut "Maximum conversation turns reached")) :=
  runTurns_budget env promptId hab hag MAX_TURNS 0 0 0 parts "" (by omega)

/-- A concrete agent that requests one tool call on every turn, a
    concrete successful executor, and no cancellation. -/
def alwaysToolEnv : LoopEnv :=
  ⟨fun _ _ => [.toolCallRequest ⟨"c1", "tool", "x"⟩, .finished],
   fun _ _ => .ok ⟨none, none, [.text "ok"]⟩,
   fun _ => false⟩

/-- Witness for C1 at the concrete always-tool-calling environment. -/
theorem loop_turn_budget_witness :
    (∀ n, alwaysToolEnv.aborted n = false) ∧
    (∀ t req, noErrorEv (alwaysToolEnv.agent t req) = true ∧
      toolCallsOf (alwaysToolEnv.agent t req) ≠ []) ∧
    countStartTurns
        (processMessageWithToolLoop alwaysToolEnv "p" [.text "hi"]).1 =
      MAX_TURNS ∧
    (processMessageWithToolLoop alwaysToolEnv "p" [.text "hi"]).1.getLast? =
      some (.emit (.errorOut "Maximum conversation turns reached")) := by
  have hab : ∀ n, alwaysToolEnv.aborted n = false := fun _ => rfl
  have hag : ∀ t req, noErrorEv (alwaysToolEnv.agent t req) = true ∧
      toolCallsOf (alwaysToolEnv.agent t req) ≠ [] :=
    fun t req => ⟨rfl, by simp [alwaysToolEnv, toolCallsOf]⟩
  have h := loop_turn_budget alwaysToolEnv "p" [.text "hi"] hab hag
  exact ⟨hab, hag, h.1, h.2⟩

/-- A tool-execution action: a `tool_executing` frame or an invocation of
    the external tool executor. -/
def isToolAct : LoopAction → Bool
  | .invokeTool _ _ => true
  | .emit (.toolExecutingEv _ _) => true
  | _ => false

/-- An observed-abort marker. -/
def isAbortMark : LoopAction → Bool
  | .observeAbort => true
  | _ => false

/-- Holds when no tool-execution action occurs after the first observed
    abort in the trace. -/
def noToolAfterAbort : List LoopAction → Bool
  | [] => true
  | .observeAbort :: rest => rest.all fun a => !isToolAct a
  | _ :: rest => noToolAfterAbort rest

lemma noToolAfterAbort_emit (e : OutEvent) (l : List LoopAction) :
    noToolAfterAbort (.emit e :: l) = noToolAfterAbort l := rfl

lemma noToolAfterAbort_startTurn (n : Nat) (l : List LoopAction) :
    noToolAfterAbort (.startTurn n :: l) = noToolAfterAbort l := rfl

lemma noToolAfterAbort_cons (a : LoopAction) (l : List LoopAction)
    (h : isAbortMark a = false) :
    noToolAfterAbort (a :: l) = noToolAfterAbort l := by
  cases a <;> simp_all [noToolAfterAbort, isAbortMark]

lemma noToolAfterAbort_append (l1 l2 : List LoopAction)
    (h1 : ∀ a ∈ l1, isAbortMark a = false)
    (h2 : noToolAfterAbort l2 = true) :
    noToolAfterAbort (l1 ++ l2) = true := by
  induction l1 with
  | nil => simpa using h2
  | cons a rest ih =>
    rw [List.cons_append,
      noToolAfterAbort_cons a _ (h1 a (List.mem_cons_self a rest))]
    exact ih fun x hx => h1 x (List.mem_cons_of_mem a hx)

lemma noAbort_noToolAfterAbort (l : List LoopAction)
    (h : ∀ a ∈ l, isAbortMark a = false) : noToolAfterAbort l = true := by
  have := noToolAfterAbort_append l [] h rfl
  simpa using this

lemma postLoop_no_abort (tc : Nat) :
    ∀ a ∈ postLoop tc, isAbortMark a = false := by
  intro a ha
  unfold postLoop at ha
  by_cases h : tc ≥ MAX_TURNS <;> simp [h] at ha
  subst ha; rfl

lemma pushAct_emit_safe (e : OutEvent) (s : StreamStep)
    (h : match s with
     | .proceed _ tr _ _ => ∀ a ∈ tr, isAbortMark a = false
     | .halted tr _ => noToolAfterAbort tr = true) :
    (match pushAct (.emit e) s with
     | .proceed _ tr _ _ => ∀ a ∈ tr, isAbortMark a = false
     | .halted tr _ => noToolAfterAbort tr = true) := by
  cases s with
  | proceed b tr c i =>
    simp only [pushAct]
    intro a ha
    rcases List.mem_cons.mp ha with ha | ha
    · subst ha; rfl
    · exact h a ha
  | halted tr c =>
    simp only [pushAct]
    rw [noToolAfterAbort_emit]
    exact h

lemma consumeStream_safe (env : LoopEnv) (promptId : String) :
    ∀ (evs : List AgentEvent) (checkIdx : Nat) (content : String)
      (buffer : List ToolCallRequestInfo),
    (match consumeStream env promptId evs checkIdx content buffer with
     | .proceed _ tr _ _ => ∀ a ∈ tr, isAbortMark a = false
     | .halted tr _ => noToolAfterAbort tr = true) := by
  intro evs
  induction evs with
  | nil => intro checkIdx content buffer; simp [consumeStream]
  | cons ev rest ih =>
    intro checkIdx content buffer
    by_cases habt : env.aborted checkIdx = true
    · cases ev <;>
        simp [consumeStream, habt, noToolAfterAbort, isToolAct]
    · have habt' : env.aborted checkIdx = false := by
        simpa using habt
      cases ev with
      | content value =>
        by_cases hv : value = ""
        · have := ih (checkIdx + 1) content buffer
          simpa [consumeStream, habt', hv] using this
        · simp only [consumeStream, habt', Bool.false_eq_true, if_false,
            if_pos hv]
          exact pushAct_emit_safe _ _
            (ih (checkIdx + 1) (content ++ value) buffer)
      | thought value =>
        simp only [consumeStream, habt', Bool.false_eq_true, if_false]
        exact pushAct_emit_safe _ _ (ih (checkIdx + 1) content buffer)
      | toolCallRequest tc =>
        simp only [consumeStream, habt', Bool.false_eq_true, if_false]
        exact pushAct_emit_safe _ _ (ih (checkIdx + 1) content (buffer ++ [tc]))
      | errorEv message =>
        simp [consumeStream, habt', noToolAfterAbort]
      | finished =>
        have := ih (checkIdx + 1) content buffer
        simpa [consumeStream, habt'] using this
      | otherEv =>
        have := ih (checkIdx + 1) content buffer
        simpa [consumeStream, habt'] using this

lemma execTools_no_abort (env : LoopEnv) :
    ∀ (buf : List ToolCallRequestInfo) (invokeIdx : Nat),
      ∀ a ∈ (execTools env buf invokeIdx).1, isAbortMark a = false := by
  intro buf
  induction buf with
  | nil => intro invokeIdx a ha; simp [execTools] at ha
  | cons r rest ih =>
    intro invokeIdx a ha
    cases hx : env.executor invokeIdx r with
    | ok resp =>
      simp only [execTools, hx] at ha
      simp at ha
      rcases ha with ha | ha | ha | ha
      · subst ha; rfl
      · subst ha; rfl
      · subst ha; rfl
      · exact ih (invokeIdx + 1) a ha
    | threw message =>
      simp only [execTools, hx] at ha
      simp at ha
      rcases ha with ha | ha | ha | ha
      · subst ha; rfl
      · subst ha; rfl
      · subst ha; rfl
      · exact ih (invokeIdx + 1) a ha

lemma runTurns_noToolAfterAbort (env : LoopEnv) (promptId : String) :
    ∀ (fuel turnCount checkIdx invokeIdx : Nat) (req : List GPart)
      (content : String),
    noToolAfterAbort
        (runTurns env promptId fuel turnCount checkIdx invokeIdx req
          content).1 = true := by
  intro fuel
  induction fuel with
  | zero =>
    intro turnCount checkIdx invokeIdx req content
    exact noAbort_noToolAfterAbort _ (postLoop_no_abort turnCount)
  | succ fuel ih =>
    intro turnCount checkIdx invokeIdx req content
    by_cases hlt : turnCount < MAX_TURNS
    · by_cases habt : env.aborted checkIdx = true
      · simp only [runTurns, if_pos hlt, habt, if_true]
        show noToolAfterAbort (.observeAbort :: postLoop (turnCount + 1)) = true
        simp only [noToolAfterAbort, List.all_eq_true]
        intro a ha
        unfold postLoop at ha
        by_cases h : turnCount + 1 ≥ MAX_TURNS <;> simp [h] at ha
        subst ha; rfl
      · have habt' : env.aborted checkIdx = false := by simpa using habt
        have hsafe := consumeStream_safe env promptId
          (env.agent (turnCount + 1) req) (checkIdx + 1) content []
        simp only [runTurns, if_pos hlt, habt', Bool.false_eq_true, if_false]
        rcases hcs : consumeStream env promptId (env.agent (turnCount + 1) req)
            (checkIdx + 1) content [] with ⟨buffer, tr, c, i⟩ | ⟨tr, c⟩
        all_goals rw [hcs] at hsafe
        · by_cases hbe : buffer.isEmpty
          · simp only [hbe, if_true]
            rw [noToolAfterAbort_startTurn]
            exact noToolAfterAbort_append tr _ hsafe
              (noAbort_noToolAfterAbort _ (postLoop_no_abort (turnCount + 1)))
          · simp only [hbe, Bool.false_eq_true, if_false]
            rw [noToolAfterAbort_startTurn]
            refine noToolAfterAbort_append _ _ ?_ (ih _ _ _ _ _)
            intro a ha
            rcases List.mem_append.mp ha with ha | ha
            · exact hsafe a ha
            · exact execTools_no_abort env buffer invokeIdx a ha
        · rw [noToolAfterAbort_startTurn]
          exact hsafe
    · simp only [runTurns, if_neg hlt]
      exact noAbort_noToolAfterAbort _ (postLoop_no_abort turnCount)

/-- C3: once the tool-execution loop observes the cancellation signal as
    aborted (at the top-of-turn check or at the per-event check inside the
    stream-consuming loop), no further tool-execution action occurs in its
    trace: no `tool_executing` frame is written and the external tool
    executor is not invoked again.  Holds for every environment, executor
    and abort pattern. -/
theorem no_tool_after_abort_observed (env : LoopEnv) (promptId : String)
    (parts : List GPart) :
    noToolAfterAbort (processMessageWithToolLoop env promptId parts).1 =
      true :=
  runTurns_noToolAfterAbort env promptId MAX_TURNS 0 0 0 parts ""

/-- C7: a tool invocation that throws yields exactly one `tool_result`
    frame for that call, with success `false` and the thrown message; the
    textual error part `Error executing tool <name>: <message>` is folded
    into the collected response parts; the remaining buffered tool calls
    are still processed; and, for a turn whose stream requested exactly
    that one call, the loop proceeds to the next turn with the error text
    as the outbound request instead of terminating. -/
theorem tool_failure_resilience (env : LoopEnv) (promptId : String)
    (c : ToolCallRequestInfo) (rest : List ToolCallRequestInfo)
    (invokeIdx : Nat) (m : String)
    (fuel turnCount checkIdx : Nat) (req : List GPart) (content : String)
    (h : env.executor invokeIdx c = .threw m)
    (hlt : turnCount < MAX_TURNS)
    (hab : ∀ n, env.aborted n = false)
    (hstream : env.agent (turnCount + 1) req =
      [.toolCallRequest c, .finished]) :
    (execTools env (c :: rest) invokeIdx).1 =
      [.emit (.toolExecutingEv c.callId c.name),
       .invokeTool c.callId c.name,
       .emit (.toolResultEv c.callId c.name false none (some m))]
      ++ (execTools env rest (invokeIdx + 1)).1 ∧
    (execTools env (c :: rest) invokeIdx).2.1 =
      GPart.text ("Error executing tool " ++ c.name ++ ": " ++ m)
        :: (execTools env rest (invokeIdx + 1)).2.1 ∧
    (execTools env (c :: rest) invokeIdx).2.2 =
      (execTools env rest (invokeIdx + 1)).2.2 ∧
    runTurns env promptId (fuel + 1) turnCount checkIdx invokeIdx req
        content =
      (LoopAction.startTurn (turnCount + 1) ::
        ([.emit (.toolCallEv (if c.callId = "" then "<uuid>" else c.callId)
            (if c.name = "" then "unknown" else c.name)),
          .emit (.toolExecutingEv c.callId c.name),
          .invokeTool c.callId c.name,
          .emit (.toolResultEv c.callId c.name false none (some m))] ++
          (runTurns env promptId fuel (turnCount + 1) (checkIdx + 3)
            (invokeIdx + 1)
            [GPart.text ("Error executing tool " ++ c.name ++ ": " ++ m)]
            content).1),
       (runTurns env promptId fuel (turnCount + 1) (checkIdx + 3)
          (invokeIdx + 1)
          [GPart.text ("Error executing tool " ++ c.name ++ ": " ++ m)]
          content).2) := by
  refine ⟨by simp [execTools, h], by simp [execTools, h],
    by simp [execTools, h], ?_⟩
  have heq : consumeStream env promptId (env.agent (turnCount + 1) req)
      (checkIdx + 1) content [] =
      .proceed [c]
        [.emit (.toolCallEv (if c.callId = "" then "<uuid>" else c.callId)
          (if c.name = "" then "unknown" else c.name))]
        content (checkIdx + 3) := by
    rw [hstream]
    simp [consumeStream, hab (checkIdx + 1), hab (checkIdx + 2), pushAct]
  rw [runTurns_step_tools env promptId fuel turnCount checkIdx invokeIdx
    req content hlt (hab checkIdx) [c] _ content (checkIdx + 3) heq
    (by simp)]
  have hexec : execTools env [c] invokeIdx =
      ([.emit (.toolExecutingEv c.callId c.name),
        .invokeTool c.callId c.name,
        .emit (.toolResultEv c.callId c.name false none (some m))],
       [GPart.text ("Error executing tool " ++ c.name ++ ": " ++ m)],
       invokeIdx + 1) := by
    simp [execTools, h]
  rw [hexec]
  simp [nextReqOf]

/-- A concrete environment whose executor always throws and whose agent
    requests one tool call on the first turn. -/
def throwingEnv : LoopEnv :=
  ⟨fun _ _ => [.toolCallRequest ⟨"c2", "t2", "a"⟩, .finished],
   fun _ _ => .threw "boom",
   fun _ => false⟩

/-- Witness for C7 at a concrete throwing executor. -/
theorem tool_failure_resilience_witness :
    (throwingEnv.executor 0 ⟨"c2", "t2", "a"⟩ = .threw "boom") ∧
    (0 < MAX_TURNS) ∧
    (∀ n, throwingEnv.aborted n = false) ∧
    (throwingEnv.agent 1 [.text "go"] =
      [.toolCallRequest ⟨"c2", "t2", "a"⟩, .finished]) ∧
    (execTools throwingEnv [⟨"c2", "t2", "a"⟩] 0).1 =
      [.emit (.toolExecutingEv "c2" "t2"),
       .invokeTool "c2" "t2",
       .emit (.toolResultEv "c2" "t2" false none (some "boom"))]
      ++ (execTools throwingEnv [] 1).1 := by
  have h := tool_failure_resilience throwingEnv "p" ⟨"c2", "t2", "a"⟩ []
    0 "boom" 3 0 0 [.text "go"] "" rfl (by decide) (fun _ => rfl) rfl
  exact ⟨rfl, by decide, fun _ => rfl, rfl, h.1⟩

/-- Session metadata as persisted in the index
    (packages/a2a-server/src/storage/session-store.ts). -/
structure SessionMetadata where
  id : String
  title : String
  workDir : String
  createdAt : Int
  updatedAt : Int
deriving DecidableEq, Repr

/-- Role of a stored chat-transcript message. -/
inductive StoredRole where
  | user
  | assistant
deriving DecidableEq, Repr

/-- One stored chat-transcript message. -/
structure StoredMessage where
  id : String
  role : StoredRole
  content : String
  timestamp : Int
deriving DecidableEq, Repr

/-- Contents of a file in the modelled filesystem.  JSON serialization is
    embedded by storing the structured value; a `textF` entry models any
    plain byte/text content. -/
inductive FileData where
  | textF (content : String)
  | msgsF (messages : List StoredMessage)
  | idxF (index : List (String × SessionMetadata))
  | convF (messages : List ConvMessage)
deriving DecidableEq, Repr

/-- The filesystem: directory paths plus `(path, data)` files.  A write
    prepends its entry and lookup takes the first match, which models
    overwrite semantics. -/
structure FS where
  dirs : List String
  files : List (String × FileData)
deriving DecidableEq, Repr

def dirExists (fs : FS) (p : String) : Bool :=
  fs.dirs.any fun d => d = p

def fileLookup (fs : FS) (p : String) : Option FileData :=
  (fs.files.find? fun f => f.1 = p).map (·.2)

/-- Model of `fs.existsSync(p)`: true for a directory or a file at `p`. -/
def fsExists (fs : FS) (p : String) : Bool :=
  dirExists fs p || (fileLookup fs p).isSome

def mkdirSync (fs : FS) (p : String) : FS :=
  ⟨p :: fs.dirs, fs.files⟩

def writeFileSync (fs : FS) (p : String) (d : FileData) : FS :=
  ⟨fs.dirs, (p, d) :: fs.files⟩

/-- Holds when `q` lies strictly inside directory `p`. -/
def underDir (p q : String) : Bool :=
  jsStartsWith q (p ++ "/")

def filesUnder (fs : FS) (p : String) : List (String × FileData) :=
  fs.files.filter fun f => underDir p f.1

def dirsUnder (fs : FS) (p : String) : List String :=
  fs.dirs.filter fun d => underDir p d

/-- A directory with no file and no directory strictly inside it. -/
def dirIsEmpty (fs : FS) (p : String) : Bool :=
  (filesUnder fs p).isEmpty && (dirsUnder fs p).isEmpty

/-- In-memory state of the `SessionStore` class: configuration paths, the
    loaded index, and the filesystem it mutates. -/
structure SessionStore where
  sessionsDir : String
  projectsDir : String
  index : List (String × SessionMetadata)
  fs : FS
deriving DecidableEq, Repr

def idxLookup (idx : List (String × SessionMetadata)) (id : String) :
    Option SessionMetadata :=
  (idx.find? fun e => e.1 = id).map (·.2)

/-- JS object key assignment: the new binding shadows any previous one. -/
def idxInsert (idx : List (String × SessionMetadata)) (id : String)
    (md : SessionMetadata) : List (String × SessionMetadata) :=
  (id, md) :: idx.filter fun e => e.1 ≠ id

def indexPath (st : SessionStore) : String :=
  st.sessionsDir ++ "/.sessions.json"

/-- Embedding of `SessionStore.getSession`. -/
def getSession (st : SessionStore) (sessionId : String) :
    Option SessionMetadata :=
  idxLookup st.index sessionId

/-- Embedding of `SessionStore.hasSession`. -/
def hasSession (st : SessionStore) (sessionId : String) : Bool :=
  (idxLookup st.index sessionId).isSome

/-- Embedding of `SessionStore.getWorkDirPath`. -/
def getWorkDirPath (st : SessionStore) (sessionId : String) : Option String :=
  (idxLookup st.index sessionId).map fun s => st.projectsDir ++ "/" ++ s.workDir

/-- Embedding of `saveIndex`: rewrite the index file wholesale. -/
def saveIndex (st : SessionStore) : SessionStore :=
  { st with fs := writeFileSync st.fs (indexPath st) (.idxF st.index) }

/-- The default title of `createSession`. -/
def defaultTitle : String := "新对话"

/-- The `index.html` template seeded into a new working directory. -/
def indexHtmlTemplate : String :=
  "<!DOCTYPE html>\n<html lang=\"zh-CN\">\n<head>\n    <meta charset=\"UTF-8\">\n    <meta name=\"viewport\" content=\"width=device-width, initial-scale=1.0\">\n    <title>Document</title>\n</head>\n<body>\n    \n</body>\n</html>"

/-- Embedding of `SessionStore.createSession` (session-store.ts lines 80-132): create
    the working directory and message directory when missing, register
    the metadata, save the index, seed an empty `.messages.json`, and
    seed the `index.html` template into the working directory.
    `Date.now()` is the explicit `now`. -/
def createSession (st : SessionStore) (sessionId workDirName title : String)
    (now : Int) : SessionMetadata × SessionStore :=
  let workDirPath := st.projectsDir ++ "/" ++ workDirName
  let fs1 := if fsExists st.fs workDirPath then st.fs
    else mkdirSync st.fs workDirPath
  let sessionMessagesDir := st.sessionsDir ++ "/" ++ sessionId
  let fs2 := if fsExists fs1 sessionMessagesDir then fs1
    else mkdirSync fs1 sessionMessagesDir
  let session : SessionMetadata :=
    ⟨sessionId, title, workDirName, now, now⟩
  let index1 := idxInsert st.index sessionId session
  let st1 : SessionStore := saveIndex { st with index := index1, fs := fs2 }
  let messagesPath := sessionMessagesDir ++ "/.messages.json"
  let fs3 := if fsExists st1.fs messagesPath then st1.fs
    else writeFileSync st1.fs messagesPath (.msgsF [])
  let indexHtmlPath := workDirPath ++ "/index.html"
  let fs4 := if fsExists fs3 indexHtmlPath then fs3
    else writeFileSync fs3 indexHtmlPath (.textF indexHtmlTemplate)
  (session, { st1 with fs := fs4 })

/-- Embedding of `SessionStore.updateSession` (session-store.ts lines 134-151): not
    found yields `none` and no mutation; otherwise the title is replaced
    when an update value is present, `updatedAt` is bumped, and the index
    is saved. -/
def updateSession (st : SessionStore) (sessionId : String)
    (title : Option String) (now : Int) :
    Option SessionMetadata × SessionStore :=
  match idxLookup st.index sessionId with
  | none => (none, st)
  | some s =>
    let s1 : SessionMetadata :=
      { s with title := match title with | some t => t | none => s.title,
               updatedAt := now }
    let st1 := saveIndex { st with index := idxInsert st.index sessionId s1 }
    (some s1, st1)

/-- Embedding of `SessionStore.getMessages`: read the session's `.messages.json`; a
    missing or non-message file yields `[]` (the catch branch). -/
def getMessages (st : SessionStore) (sessionId : String) :
    List StoredMessage :=
  let messagesPath := st.sessionsDir ++ "/" ++ sessionId ++ "/.messages.json"
  match fileLookup st.fs messagesPath with
  | some (.msgsF l) => l
  | some _ => []
  | none => []

/-- Embedding of `SessionStore.addMessage` (session-store.ts lines 191-207): create
    the message directory when missing, append the message to the log,
    and bump the session's `updatedAt` via `updateSession` with no field
    updates; always returns `true`. -/
def addMessage (st : SessionStore) (sessionId : String)
    (message : StoredMessage) (now : Int) : Bool × SessionStore :=
  let sessionMessagesDir := st.sessionsDir ++ "/" ++ sessionId
  let fs1 := if fsExists st.fs sessionMessagesDir then st.fs
    else mkdirSync st.fs sessionMessagesDir
  let st1 : SessionStore := { st with fs := fs1 }
  let messages := getMessages st1 sessionId ++ [message]
  let messagesPath := sessionMessagesDir ++ "/.messages.json"
  let st2 : SessionStore :=
    { st1 with fs := writeFileSync st1.fs messagesPath (.msgsF messages) }
  let st3 := (updateSession st2 sessionId none now).2
  (true, st3)

lemma jsStartsWith_append (p s : String) :
    jsStartsWith (p ++ s) p = true := by
  unfold jsStartsWith
  rw [String.data_append]
  exact List.isPrefixOf_iff_prefix.mpr (List.prefix_append _ _)

lemma underDir_concat (p s : String) (h : jsStartsWith s "/" = true) :
    underDir p (p ++ s) = true := by
  unfold underDir jsStartsWith at *
  obtain ⟨t, ht⟩ := List.isPrefixOf_iff_prefix.mp h
  rw [String.data_append, String.data_append, ← ht, ← List.append_assoc]
  exact List.isPrefixOf_iff_prefix.mpr (List.prefix_append _ _)

lemma underDir_self (p : String) : underDir p p = false := by
  unfold underDir jsStartsWith
  rw [Bool.eq_false_iff]
  intro h
  have := ( List.isPrefixOf_iff_prefix.mp h).length_le
  rw [String.data_append] at this
  simp at this

/-- A fresh store as built by the `SessionStore` constructor: empty
    index, the sessions directory created. -/
def freshStore : SessionStore := ⟨"/s", "/p", [], ⟨["/s"], []⟩⟩

set_option maxRecDepth 8192 in
/-- C5 counterexample: on a fresh store, the working directory of a newly
    created session exists but is NOT empty — `createSession` seeds an
    `index.html` template into it, so `dirIsEmpty` is false immediately
    after creation. -/
theorem create_workdir_not_empty_cex :
    getWorkDirPath (createSession freshStore "sid" "wd" defaultTitle 100).2
        "sid" = some "/p/wd" ∧
    dirExists (createSession freshStore "sid" "wd" defaultTitle 100).2.fs
        "/p/wd" = true ∧
    dirIsEmpty (createSession freshStore "sid" "wd" defaultTitle 100).2.fs
        "/p/wd" = false ∧
    fileLookup (createSession freshStore "sid" "wd" defaultTitle 100).2.fs
        "/p/wd/index.html" = some (.textF indexHtmlTemplate) := by
  decide

lemma createSession_unfold (st : SessionStore)
    (sessionId workDirName title : String) (now : Int) :
    createSession st sessionId workDirName title now =
      (⟨sessionId, title, workDirName, now, now⟩,
       ⟨st.sessionsDir, st.projectsDir,
        idxInsert st.index sessionId ⟨sessionId, title, workDirName, now, now⟩,
        (fun fs3 =>
          if fsExists fs3 (st.projectsDir ++ "/" ++ workDirName ++ "/index.html")
          then fs3
          else writeFileSync fs3
            (st.projectsDir ++ "/" ++ workDirName ++ "/index.html")
            (.textF indexHtmlTemplate))
        ((fun fs2i =>
          if fsExists fs2i (st.sessionsDir ++ "/" ++ sessionId ++ "/.messages.json")
          then fs2i
          else writeFileSync fs2i
            (st.sessionsDir ++ "/" ++ sessionId ++ "/.messages.json")
            (.msgsF []))
         (writeFileSync
          ((fun fs1 =>
            if fsExists fs1 (st.sessionsDir ++ "/" ++ sessionId) then fs1
            else mkdirSync fs1 (st.sessionsDir ++ "/" ++ sessionId))
           (if fsExists st.fs (st.projectsDir ++ "/" ++ workDirName) then st.fs
            else mkdirSync st.fs (st.projectsDir ++ "/" ++ workDirName)))
          (st.sessionsDir ++ "/.sessions.json")
          (.idxF (idxInsert st.index sessionId
            ⟨sessionId, title, workDirName, now, now⟩))))⟩) := rfl

lemma fsExists_eq_false_of_mem (fsx : FS) (p : String)
    (hd : ∀ d ∈ fsx.dirs, d ≠ p)
    (hf : ∀ e ∈ fsx.files, e.1 ≠ p) :
    fsExists fsx p = false := by
  unfold fsExists dirExists fileLookup
  have hD : (fsx.dirs.any fun d => decide (d = p)) = false := by
    rw [List.any_eq_false]
    intro d hdm
    simp only [decide_eq_true_eq]
    exact hd d hdm
  have hF : (fsx.files.find? fun f => decide (f.1 = p)) = none := by
    rw [List.find?_eq_none]
    intro e hem
    simp only [decide_eq_true_eq]
    exact hf e hem
  simp [hD, hF]

lemma idxLookup_insert (idx : List (String × SessionMetadata))
    (id x : String) (md : SessionMetadata) :
    idxLookup (idxInsert idx id md) x =
      if x = id then some md else idxLookup idx x := by
  unfold idxLookup idxInsert
  by_cases hx : x = id
  · subst hx
    simp [List.find?]
  · rw [if_neg hx, List.find?_cons_of_neg _ (by simpa using fun h => hx h.symm)]
    congr 1
    induction idx with
    | nil => rfl
    | cons e rest ih =>
      by_cases he : e.1 = id
      · have hex : (decide (e.1 = x)) = false := by
          simp only [decide_eq_false_iff_not]
          intro hh
          exact hx (hh ▸ he)
        rw [List.filter_cons_of_neg (by simp [he])]
        conv_rhs => rw [List.find?_cons]
        rw [hex]
        exact ih
      · rw [List.filter_cons_of_pos (by simp [he]), List.find?_cons,
          List.find?_cons, ih]

lemma mem_dirs_ite_mkdir {c : Prop} [Decidable c] (fs : FS) (p d : String)
    (h : d ∈ (if c then fs else mkdirSync fs p).dirs) :
    d = p ∨ d ∈ fs.dirs := by
  split at h
  · exact Or.inr h
  · rcases List.mem_cons.mp h with h | h
    · exact Or.inl h
    · exact Or.inr h

lemma mem_files_ite_write {c : Prop} [Decidable c] (fs : FS) (p : String)
    (dd : FileData) (e : String × FileData)
    (h : e ∈ (if c then fs else writeFileSync fs p dd).files) :
    e.1 = p ∨ e ∈ fs.files := by
  split at h
  · exact Or.inr h
  · rcases List.mem_cons.mp h with h | h
    · exact Or.inl (by rw [h])
    · exact Or.inr h

lemma files_ite_mkdir {c : Prop} [Decidable c] (fs : FS) (p : String) :
    (if c then fs else mkdirSync fs p).files = fs.files := by
  split <;> rfl

lemma dirs_ite_write {c : Prop} [Decidable c] (fs : FS) (p : String)
    (dd : FileData) :
    (if c then fs else writeFileSync fs p dd).dirs = fs.dirs := by
  split <;> rfl

lemma create_fs_facts (fs0 fs1 fs2 fs2i fs3 fs4 : FS)
    (wdp smd msgp idxp : String) (idxd : FileData)
    (e1 : fs1 = if fsExists fs0 wdp then fs0 else mkdirSync fs0 wdp)
    (e2 : fs2 = if fsExists fs1 smd then fs1 else mkdirSync fs1 smd)
    (e2i : fs2i = writeFileSync fs2 idxp idxd)
    (e3 : fs3 = if fsExists fs2i msgp then fs2i
      else writeFileSync fs2i msgp (.msgsF []))
    (e4 : fs4 = if fsExists fs3 (wdp ++ "/index.html") then fs3
      else writeFileSync fs3 (wdp ++ "/index.html") (.textF indexHtmlTemplate))
    (hnex : fsExists fs0 wdp = false)
    (hfu : ∀ e ∈ fs0.files, underDir wdp e.1 = false)
    (hdu : ∀ d ∈ fs0.dirs, underDir wdp d = false)
    (hmdir : underDir wdp smd = false)
    (hmsg : underDir wdp msgp = false)
    (hidx : underDir wdp idxp = false) :
    dirExists fs4 wdp = true ∧
    fileLookup fs4 (wdp ++ "/index.html") = some (.textF indexHtmlTemplate) ∧
    dirIsEmpty fs4 wdp = false := by
  have hput : underDir wdp (wdp ++ "/index.html") = true :=
    underDir_concat wdp "/index.html" (by decide)
  have hself : underDir wdp wdp = false := underDir_self wdp
  have hfs1 : fs1 = mkdirSync fs0 wdp := by
    rw [e1, if_neg (by simp [hnex])]
  have hd3 : ∀ d ∈ fs3.dirs, d = smd ∨ d = wdp ∨ d ∈ fs0.dirs := by
    intro d hd
    rw [e3] at hd
    rw [dirs_ite_write, e2i] at hd
    have hd' : d ∈ fs2.dirs := hd
    rw [e2] at hd'
    rcases mem_dirs_ite_mkdir fs1 smd d hd' with h | h
    · exact Or.inl h
    · rw [hfs1] at h
      rcases List.mem_cons.mp h with h | h
      · exact Or.inr (Or.inl h)
      · exact Or.inr (Or.inr h)
  have hf3 : ∀ e ∈ fs3.files, e.1 = msgp ∨ e.1 = idxp ∨ e ∈ fs0.files := by
    intro e he
    rw [e3] at he
    rcases mem_files_ite_write fs2i msgp (.msgsF []) e he with h | h
    · exact Or.inl h
    · rw [e2i] at h
      rcases List.mem_cons.mp h with h | h
      · exact Or.inr (Or.inl (by rw [h]))
      · rw [e2, files_ite_mkdir, hfs1] at h
        exact Or.inr (Or.inr h)
  have hne : ∀ s : String, underDir wdp s = false →
      s ≠ wdp ++ "/index.html" := by
    intro s hs hEq
    rw [hEq, hput] at hs
    simp at hs
  have hex : fsExists fs3 (wdp ++ "/index.html") = false := by
    apply fsExists_eq_false_of_mem
    · intro d hd
      rcases hd3 d hd with h | h | h
      · exact h ▸ hne smd hmdir
      · exact h ▸ hne wdp hself
      · exact hne d (hdu d h)
    · intro e he
      rcases hf3 e he with h | h | h
      · exact h ▸ hne msgp hmsg
      · exact h ▸ hne idxp hidx
      · exact hne e.1 (hfu e h)
  have hfs4 : fs4 = writeFileSync fs3 (wdp ++ "/index.html")
      (.textF indexHtmlTemplate) := by
    rw [e4, if_neg (by simp [hex])]
  have hwd3 : dirExists fs3 wdp = true := by
    have hmem : wdp ∈ fs3.dirs := by
      rw [e3, dirs_ite_write, e2i]
      show wdp ∈ fs2.dirs
      rw [e2]
      by_cases hc : fsExists fs1 smd
      · rw [if_pos hc, hfs1]
        exact List.mem_cons_self _ _
      · rw [if_neg hc]
        exact List.mem_cons_of_mem _ (by
          rw [hfs1]; exact List.mem_cons_self _ _)
    unfold dirExists
    rw [List.any_eq_true]
    exact ⟨wdp, hmem, by simp⟩
  refine ⟨?_, ?_, ?_⟩
  · rw [hfs4]
    exact hwd3
  · rw [hfs4]
    simp [fileLookup, writeFileSync, List.find?_cons]
  · rw [hfs4]
    simp [dirIsEmpty, filesUnder, writeFileSync, List.filter_cons, hput]

/-- C5 (amended): for every store state in which the new working
    directory does not yet exist and nothing lies under it (and the
    session-log paths are not inside it), `getSession` after
    `createSession` returns the created metadata, whose `workDir` names a
    directory that exists on disk and contains exactly the seeded
    `index.html` template — in particular it is NOT empty at creation. -/
theorem create_then_get_workdir (st : SessionStore)
    (sessionId workDirName title : String) (now : Int)
    (hnex : fsExists st.fs (st.projectsDir ++ "/" ++ workDirName) = false)
    (hfu : ∀ e ∈ st.fs.files,
      underDir (st.projectsDir ++ "/" ++ workDirName) e.1 = false)
    (hdu : ∀ d ∈ st.fs.dirs,
      underDir (st.projectsDir ++ "/" ++ workDirName) d = false)
    (hmdir : underDir (st.projectsDir ++ "/" ++ workDirName)
      (st.sessionsDir ++ "/" ++ sessionId) = false)
    (hmsg : underDir (st.projectsDir ++ "/" ++ workDirName)
      (st.sessionsDir ++ "/" ++ sessionId ++ "/.messages.json") = false)
    (hidx : underDir (st.projectsDir ++ "/" ++ workDirName)
      (st.sessionsDir ++ "/.sessions.json") = false) :
    getSession (createSession st sessionId workDirName title now).2
      sessionId = some ⟨sessionId, title, workDirName, now, now⟩ ∧
    getWorkDirPath (createSession st sessionId workDirName title now).2
      sessionId = some (st.projectsDir ++ "/" ++ workDirName) ∧
    dirExists (createSession st sessionId workDirName title now).2.fs
      (st.projectsDir ++ "/" ++ workDirName) = true ∧
    fileLookup (createSession st sessionId workDirName title now).2.fs
      (st.projectsDir ++ "/" ++ workDirName ++ "/index.html") =
      some (.textF indexHtmlTemplate) ∧
    dirIsEmpty (createSession st sessionId workDirName title now).2.fs
      (st.projectsDir ++ "/" ++ workDirName) = false := by
  have hfacts := create_fs_facts st.fs _ _ _ _ _
    (st.projectsDir ++ "/" ++ workDirName)
    (st.sessionsDir ++ "/" ++ sessionId)
    (st.sessionsDir ++ "/" ++ sessionId ++ "/.messages.json")
    (st.sessionsDir ++ "/.sessions.json")
    (.idxF (idxInsert st.index sessionId
      ⟨sessionId, title, workDirName, now, now⟩))
    rfl rfl rfl rfl rfl hnex hfu hdu hmdir hmsg hidx
  refine ⟨?_, ?_, hfacts.1, hfacts.2.1, hfacts.2.2⟩
  · unfold getSession
    rw [show (createSession st sessionId workDirName title now).2.index =
      idxInsert st.index sessionId ⟨sessionId, title, workDirName, now, now⟩
      from rfl]
    rw [idxLookup_insert]
    simp
  · unfold getWorkDirPath
    rw [show (createSession st sessionId workDirName title now).2.index =
      idxInsert st.index sessionId ⟨sessionId, title, workDirName, now, now⟩
      from rfl]
    rw [idxLookup_insert]
    simp
    rfl

set_option maxRecDepth 8192 in
/-- Witness for C5 (amended) at a fresh store. -/
theorem create_then_get_workdir_witness :
    (fsExists freshStore.fs "/p/wd" = false) ∧
    (∀ e ∈ freshStore.fs.files, underDir "/p/wd" e.1 = false) ∧
    (∀ d ∈ freshStore.fs.dirs, underDir "/p/wd" d = false) ∧
    (underDir "/p/wd" "/s/sid" = false) ∧
    (underDir "/p/wd" "/s/sid/.messages.json" = false) ∧
    (underDir "/p/wd" "/s/.sessions.json" = false) ∧
    getSession (createSession freshStore "sid" "wd" defaultTitle 100).2
      "sid" = some ⟨"sid", defaultTitle, "wd", 100, 100⟩ ∧
    dirIsEmpty (createSession freshStore "sid" "wd" defaultTitle 100).2.fs
      "/p/wd" = false := by
  have h := create_then_get_workdir freshStore "sid" "wd" defaultTitle 100
    (by decide) (by decide) (by decide) (by decide) (by decide) (by decide)
  exact ⟨by decide, by decide, by decide, by decide, by decide, by decide,
    h.1, h.2.2.2.2⟩

lemma addMessage_unfold (st : SessionStore) (sessionId : String)
    (message : StoredMessage) (now : Int) :
    addMessage st sessionId message now =
      (true,
       (updateSession
         ⟨st.sessionsDir, st.projectsDir, st.index,
          writeFileSync
            (if fsExists st.fs (st.sessionsDir ++ "/" ++ sessionId) then st.fs
             else mkdirSync st.fs (st.sessionsDir ++ "/" ++ sessionId))
            (st.sessionsDir ++ "/" ++ sessionId ++ "/.messages.json")
            (.msgsF (getMessages
              ⟨st.sessionsDir, st.projectsDir, st.index,
               if fsExists st.fs (st.sessionsDir ++ "/" ++ sessionId) then
                 st.fs
               else mkdirSync st.fs (st.sessionsDir ++ "/" ++ sessionId)⟩
              sessionId ++ [message]))⟩
         sessionId none now).2) := rfl

lemma updateSession_not_found (st : SessionStore) (id : String)
    (t : Option String) (now : Int) (h : idxLookup st.index id = none) :
    updateSession st id t now = (none, st) := by
  unfold updateSession
  rw [h]

lemma updateSession_dirs (st : SessionStore) (id : String)
    (t : Option String) (now : Int) :
    (updateSession st id t now).2.fs.dirs = st.fs.dirs := by
  unfold updateSession
  cases h : idxLookup st.index id <;> rfl

lemma fileLookup_write_ne (fs : FS) (p q : String) (d : FileData)
    (h : q ≠ p) :
    fileLookup (writeFileSync fs p d) q = fileLookup fs q := by
  unfold fileLookup writeFileSync
  simp only [List.find?_cons]
  rw [show (decide ((p, d).1 = q)) = false from by
    simp only [decide_eq_false_iff_not]
    exact fun hh => h hh.symm]

lemma fileLookup_write_self (fs : FS) (p : String) (d : FileData) :
    fileLookup (writeFileSync fs p d) p = some d := by
  unfold fileLookup writeFileSync
  simp [List.find?_cons]

lemma fileLookup_ite_mkdir {c : Prop} [Decidable c] (fs : FS)
    (p q : String) :
    fileLookup (if c then fs else mkdirSync fs p) q = fileLookup fs q := by
  split <;> rfl

lemma updateSession_fileLookup_ne (st : SessionStore) (id : String)
    (t : Option String) (now : Int) (p : String)
    (hp : p ≠ st.sessionsDir ++ "/.sessions.json") :
    fileLookup (updateSession st id t now).2.fs p = fileLookup st.fs p := by
  unfold updateSession
  cases h : idxLookup st.index id
  · rfl
  · exact fileLookup_write_ne _ _ _ _ hp

lemma msgsPath_ne_indexPath (sdir sid : String) :
    sdir ++ "/" ++ sid ++ "/.messages.json" ≠ sdir ++ "/.sessions.json" := by
  intro h
  have hlen := congrArg (fun s : String => s.data.length) h
  simp only [String.data_append, List.length_append] at hlen
  have h1 : ("/" : String).data.length = 1 := rfl
  have h2 : ("/.messages.json" : String).data.length = 15 := rfl
  have h3 : ("/.sessions.json" : String).data.length = 15 := rfl
  rw [h1, h2, h3] at hlen
  omega

lemma getMessages_eq (stx : SessionStore) (idx : String) :
    getMessages stx idx =
      (match fileLookup stx.fs
          (stx.sessionsDir ++ "/" ++ idx ++ "/.messages.json") with
       | some (.msgsF l) => l
       | some _ => []
       | none => []) := rfl

lemma getMessages_after_update (st2 : SessionStore) (sessionId : String)
    (now : Int) (M : List StoredMessage)
    (h : fileLookup st2.fs
      (st2.sessionsDir ++ "/" ++ sessionId ++ "/.messages.json") =
      some (.msgsF M)) :
    getMessages (updateSession st2 sessionId none now).2 sessionId = M := by
  have hsd : (updateSession st2 sessionId none now).2.sessionsDir =
      st2.sessionsDir := by
    unfold updateSession
    cases hx : idxLookup st2.index sessionId <;> rfl
  rw [getMessages_eq, hsd,
    updateSession_fileLookup_ne _ _ _ _ _ (msgsPath_ne_indexPath _ _), h]

/-- C9: `addMessage` returns `true` for every session id and message —
    also for an id absent from the session index: it creates the message
    directory when missing, appends the message to the log, and in the
    unknown-id case leaves the session index (metadata, `updatedAt`
    included) untouched, because the trailing `updateSession` call finds
    nothing.  It never returns `false`. -/
theorem addMessage_total (st : SessionStore) (sessionId : String)
    (message : StoredMessage) (now : Int) :
    (addMessage st sessionId message now).1 = true ∧
    (getSession st sessionId = none →
      (addMessage st sessionId message now).2.index = st.index) ∧
    (fsExists st.fs (st.sessionsDir ++ "/" ++ sessionId) = false →
      dirExists (addMessage st sessionId message now).2.fs
        (st.sessionsDir ++ "/" ++ sessionId) = true) ∧
    getMessages (addMessage st sessionId message now).2 sessionId =
      getMessages st sessionId ++ [message] := by
  refine ⟨rfl, ?_, ?_, ?_⟩
  · intro h
    rw [addMessage_unfold,
      updateSession_not_found _ _ _ _ (by exact h)]
  · intro h
    rw [addMessage_unfold]
    show dirExists (updateSession _ sessionId none now).2.fs _ = true
    unfold dirExists
    rw [updateSession_dirs]
    show ((writeFileSync (if _ then _ else _) _ _).dirs.any fun d =>
      decide (d = st.sessionsDir ++ "/" ++ sessionId)) = true
    rw [show (writeFileSync
        (if fsExists st.fs (st.sessionsDir ++ "/" ++ sessionId) then st.fs
         else mkdirSync st.fs (st.sessionsDir ++ "/" ++ sessionId))
        (st.sessionsDir ++ "/" ++ sessionId ++ "/.messages.json")
        (.msgsF (getMessages
          ⟨st.sessionsDir, st.projectsDir, st.index,
           if fsExists st.fs (st.sessionsDir ++ "/" ++ sessionId) then st.fs
           else mkdirSync st.fs (st.sessionsDir ++ "/" ++ sessionId)⟩
          sessionId ++ [message]))).dirs =
      (if fsExists st.fs (st.sessionsDir ++ "/" ++ sessionId) then st.fs
       else mkdirSync st.fs (st.sessionsDir ++ "/" ++ sessionId)).dirs
      from rfl]
    rw [if_neg (by simp [h])]
    simp [mkdirSync]
  · show getMessages
        (updateSession
          ⟨st.sessionsDir, st.projectsDir, st.index,
           writeFileSync
             (if fsExists st.fs (st.sessionsDir ++ "/" ++ sessionId) then
               st.fs
              else mkdirSync st.fs (st.sessionsDir ++ "/" ++ sessionId))
             (st.sessionsDir ++ "/" ++ sessionId ++ "/.messages.json")
             (.msgsF (getMessages
               ⟨st.sessionsDir, st.projectsDir, st.index,
                if fsExists st.fs (st.sessionsDir ++ "/" ++ sessionId) then
                  st.fs
                else mkdirSync st.fs (st.sessionsDir ++ "/" ++ sessionId)⟩
               sessionId ++ [message]))⟩
          sessionId none now).2 sessionId =
      getMessages st sessionId ++ [message]
    have hg : getMessages
        (⟨st.sessionsDir, st.projectsDir, st.index,
          if fsExists st.fs (st.sessionsDir ++ "/" ++ sessionId) then st.fs
          else mkdirSync st.fs (st.sessionsDir ++ "/" ++ sessionId)⟩ :
          SessionStore) sessionId = getMessages st sessionId := by
      by_cases hc : fsExists st.fs (st.sessionsDir ++ "/" ++ sessionId) = true
      · simp only [if_pos hc]
      · simp only [if_neg hc]
        rfl
    exact (getMessages_after_update _ _ now _
      (fileLookup_write_self _ _ _)).trans (by rw [hg])

/-- Witness for C9 at a fresh store and an id with no index entry. -/
theorem addMessage_total_witness :
    (getSession freshStore "ghost" = none) ∧
    (addMessage freshStore "ghost" ⟨"m1", .user, "hi", 7⟩ 7).1 = true ∧
    (addMessage freshStore "ghost" ⟨"m1", .user, "hi", 7⟩ 7).2.index =
      freshStore.index ∧
    getMessages (addMessage freshStore "ghost" ⟨"m1", .user, "hi", 7⟩ 7).2
      "ghost" = [⟨"m1", .user, "hi", 7⟩] := by
  have h := addMessage_total freshStore "ghost" ⟨"m1", .user, "hi", 7⟩ 7
  exact ⟨by decide, h.1, h.2.1 (by decide), by
    rw [h.2.2.2]
    decide⟩

/-- Embedding of the post-loop persistence block of the chat route
    (chat-api.ts lines 503-530): when the assistant reply is non-empty it
    is appended to the log; when the log then holds exactly two messages
    (one user, one assistant) the session title is set to
    `message.substring(0, 30)`; the conversation-file bookkeeping calls
    `updateSession` with no title update (the store ignores the unknown
    `conversationFilePath` field and only bumps `updatedAt`), guarded by
    `hasConvPath` (whether the external recording service reports a
    path). -/
def persistTurn (st : SessionStore) (sessionId promptId message
    fullResponse : String) (hasConvPath : Bool) (now : Int) :
    SessionStore :=
  if fullResponse ≠ "" then
    let st1 := (addMessage st sessionId
      ⟨promptId, .assistant, fullResponse, now⟩ now).2
    let msgs := getMessages st1 sessionId
    let st2 := if msgs.length = 2 then
        (updateSession st1 sessionId (some (jsTake message 30)) now).2
      else st1
    if hasConvPath then (updateSession st2 sessionId none now).2 else st2
  else st

lemma persistTurn_unfold (st : SessionStore) (sessionId promptId message
    fullResponse : String) (hasConvPath : Bool) (now : Int) :
    persistTurn st sessionId promptId message fullResponse hasConvPath
        now =
      if fullResponse ≠ "" then
        (if hasConvPath then
          (updateSession
            (if (getMessages (addMessage st sessionId
                  ⟨promptId, .assistant, fullResponse, now⟩ now).2
                  sessionId).length = 2 then
              (updateSession (addMessage st sessionId
                  ⟨promptId, .assistant, fullResponse, now⟩ now).2
                sessionId (some (jsTake message 30)) now).2
             else (addMessage st sessionId
                ⟨promptId, .assistant, fullResponse, now⟩ now).2)
            sessionId none now).2
         else
          (if (getMessages (addMessage st sessionId
                ⟨promptId, .assistant, fullResponse, now⟩ now).2
                sessionId).length = 2 then
            (updateSession (addMessage st sessionId
                ⟨promptId, .assistant, fullResponse, now⟩ now).2
              sessionId (some (jsTake message 30)) now).2
           else (addMessage st sessionId
              ⟨promptId, .assistant, fullResponse, now⟩ now).2))
      else st := rfl

lemma updateSession_none_title (stx : SessionStore) (id x : String)
    (now : Int) :
    (getSession (updateSession stx id none now).2 x).map
        SessionMetadata.title =
      (getSession stx x).map SessionMetadata.title := by
  unfold updateSession
  cases h : idxLookup stx.index id with
  | none => rfl
  | some s =>
    show (idxLookup (idxInsert stx.index id _) x).map _ = _
    rw [idxLookup_insert]
    by_cases hx : x = id
    · rw [if_pos hx]
      subst hx
      unfold getSession
      rw [h]
      rfl
    · rw [if_neg hx]
      rfl

lemma addMessage_title (stx : SessionStore) (id x : String)
    (msg : StoredMessage) (now : Int) :
    (getSession (addMessage stx id msg now).2 x).map
        SessionMetadata.title =
      (getSession stx x).map SessionMetadata.title := by
  simp only [addMessage_unfold]
  rw [updateSession_none_title]
  rfl

lemma updateSession_lookup_isSome (stx : SessionStore) (id x : String)
    (t : Option String) (now : Int) :
    (idxLookup (updateSession stx id t now).2.index x).isSome =
      (idxLookup stx.index x).isSome := by
  unfold updateSession
  cases h : idxLookup stx.index id with
  | none => rfl
  | some s =>
    show (idxLookup (idxInsert stx.index id _) x).isSome = _
    rw [idxLookup_insert]
    by_cases hx : x = id
    · rw [if_pos hx]
      subst hx
      rw [h]
      rfl
    · rw [if_neg hx]

lemma addMessage_lookup_isSome (stx : SessionStore) (id x : String)
    (msg : StoredMessage) (now : Int) :
    (idxLookup (addMessage stx id msg now).2.index x).isSome =
      (idxLookup stx.index x).isSome := by
  simp only [addMessage_unfold]
  rw [updateSession_lookup_isSome]

/-- C10: after a turn with a non-empty assistant reply, when the message
    log then contains exactly two stored messages and the session exists,
    the persistence block sets the session title to the first 30
    characters of the inbound `message`; when the log length is not two,
    this path leaves the title unchanged. -/
theorem first_turn_sets_title (st : SessionStore)
    (sessionId promptId message fullResponse : String)
    (hasConvPath : Bool) (now : Int)
    (hresp : fullResponse ≠ "") :
    ((getMessages (addMessage st sessionId
          ⟨promptId, .assistant, fullResponse, now⟩ now).2
          sessionId).length = 2 →
      hasSession st sessionId = true →
      (getSession (persistTurn st sessionId promptId message fullResponse
          hasConvPath now) sessionId).map SessionMetadata.title =
        some (jsTake message 30)) ∧
    ((getMessages (addMessage st sessionId
          ⟨promptId, .assistant, fullResponse, now⟩ now).2
          sessionId).length ≠ 2 →
      (getSession (persistTurn st sessionId promptId message fullResponse
          hasConvPath now) sessionId).map SessionMetadata.title =
        (getSession st sessionId).map SessionMetadata.title) := by
  constructor
  · intro hlen hses
    rw [persistTurn_unfold, if_pos hresp, if_pos hlen]
    have hexist : ∃ s, idxLookup (addMessage st sessionId
        ⟨promptId, .assistant, fullResponse, now⟩ now).2.index sessionId =
        some s := by
      rw [← Option.isSome_iff_exists]
      rw [addMessage_lookup_isSome]
      exact hses
    obtain ⟨s, hs⟩ := hexist
    have hset : (getSession (updateSession (addMessage st sessionId
        ⟨promptId, .assistant, fullResponse, now⟩ now).2 sessionId
        (some (jsTake message 30)) now).2 sessionId).map
        SessionMetadata.title = some (jsTake message 30) := by
      unfold updateSession
      rw [hs]
      show (idxLookup (idxInsert _ sessionId _) sessionId).map _ = _
      rw [idxLookup_insert, if_pos rfl]
      rfl
    by_cases hcp : hasConvPath = true
    · rw [if_pos hcp, updateSession_none_title]
      exact hset
    · rw [if_neg hcp]
      exact hset
  · intro hlen
    rw [persistTurn_unfold, if_pos hresp, if_neg hlen]
    by_cases hcp : hasConvPath = true
    · rw [if_pos hcp, updateSession_none_title, addMessage_title]
    · rw [if_neg hcp, addMessage_title]

/-- A store with one session and one stored user message, as after the
    first user turn. -/
def oneMsgStore : SessionStore :=
  ⟨"/s", "/p", [("sid", ⟨"sid", "t0", "wd", 0, 0⟩)],
   ⟨["/s", "/s/sid"],
    [("/s/sid/.messages.json", .msgsF [⟨"u1", .user, "hello", 1⟩])]⟩⟩

/-- Witness for C10: the second stored message triggers the title update
    to the first 30 characters of the inbound message. -/
theorem first_turn_sets_title_witness :
    ("reply" ≠ "") ∧
    (getMessages (addMessage oneMsgStore "sid"
        ⟨"p1", .assistant, "reply", 5⟩ 5).2 "sid").length = 2 ∧
    hasSession oneMsgStore "sid" = true ∧
    (getSession (persistTurn oneMsgStore "sid" "p1"
        "please build a breakout game with lasers" "reply" true 5)
        "sid").map SessionMetadata.title =
      some (jsTake "please build a breakout game with lasers" 30) := by
  have h := (first_turn_sets_title oneMsgStore "sid" "p1"
    "please build a breakout game with lasers" "reply" true 5
    (by decide)).1 (by decide) (by decide)
  exact ⟨by decide, by decide, by decide, h⟩

/-- An in-memory live session handle (the `ChatSession` of chat-api.ts):
    the external `Task`/agent-client instance is identified by `taskId`
    (a fresh number per construction) and the history it was seeded with
    via `resumeChat`. -/
structure ChatSession where
  id : String
  taskId : Nat
  history : List HistEntry
  workDir : String
  createdAt : Int
deriving DecidableEq, Repr

/-- State surrounding `getOrCreateSession`: the module-level
    `activeSessions` cache, the session store, the base directory for
    conversation records (`getSessionsBaseDir()`), and a counter modelling
    construction of fresh external agent clients (`Task.create`). -/
structure OrcState where
  activeSessions : List (String × ChatSession)
  store : SessionStore
  sessionsBaseDir : String
  nextTaskId : Nat
deriving Repr

def cacheLookup (cache : List (String × ChatSession)) (id : String) :
    Option ChatSession :=
  (cache.find? fun e => e.1 = id).map (·.2)

def cacheInsert (cache : List (String × ChatSession)) (id : String)
    (s : ChatSession) : List (String × ChatSession) :=
  (id, s) :: cache.filter fun e => e.1 ≠ id

def cacheRemove (cache : List (String × ChatSession)) (id : String) :
    List (String × ChatSession) :=
  cache.filter fun e => e.1 ≠ id

/-- The 24-hour idle bound on cached sessions (milliseconds). -/
def IDLE_BOUND : Int := 24 * 60 * 60 * 1000

/-- Result of `getOrCreateSession`: the session, the updated state, and
    whether a new external agent client was constructed. -/
structure OrcResult where
  session : ChatSession
  state : OrcState
  constructed : Bool
deriving Repr

/-- The restore-or-create tail of `getOrCreateSession` (chat-api.ts lines
    148-308).  Restore path: a persisted session is rebuilt with a fresh
    agent client; the stored metadata carries no `conversationFilePath`
    field (`updateSession` persists only the title), so the
    history-restore branch finds the field falsy and the client keeps
    empty history.  Create path: a new id and working directory are
    created in the store, an empty conversation record is written under
    the sessions base directory, the store's `updatedAt` is bumped, and a
    fresh agent client is initialized with empty history. -/
def restoreOrCreate (os : OrcState) (sessionId : Option String)
    (workDirName : String) (now : Int) : OrcResult :=
  let sidT := sessionId.getD ""
  if sidT ≠ "" && hasSession os.store sidT then
    let storedSession := (getSession os.store sidT).getD
      ⟨"", "", "", 0, 0⟩
    let workDirPath := (getWorkDirPath os.store sidT).getD ""
    let session : ChatSession :=
      ⟨sidT, os.nextTaskId, [], workDirPath, storedSession.createdAt⟩
    ⟨session,
     ⟨cacheInsert os.activeSessions sidT session, os.store,
      os.sessionsBaseDir, os.nextTaskId + 1⟩,
     true⟩
  else
    let newSessionId := if sidT ≠ "" then sidT
      else "session-" ++ toString now
    let r := createSession os.store newSessionId workDirName defaultTitle
      now
    let workDirPath := (getWorkDirPath r.2 newSessionId).getD ""
    let sessionDir := os.sessionsBaseDir ++ "/" ++ newSessionId
    let conversationFilePath := sessionDir ++ "/conversation.json"
    let fs1 := if fsExists r.2.fs sessionDir then r.2.fs
      else mkdirSync r.2.fs sessionDir
    let fs2 := writeFileSync fs1 conversationFilePath (.convF [])
    let st2 := (updateSession { r.2 with fs := fs2 } newSessionId none
      now).2
    let session : ChatSession :=
      ⟨newSessionId, os.nextTaskId, [], workDirPath, r.1.createdAt⟩
    ⟨session,
     ⟨cacheInsert os.activeSessions newSessionId session, st2,
      os.sessionsBaseDir, os.nextTaskId + 1⟩,
     true⟩

/-- Embedding of `getOrCreateSession` (chat-api.ts lines 132-308): the
    fast path returns a cached live handle whose age is below the
    24-hour idle bound without constructing anything; an expired handle
    is evicted before falling through to the store. -/
def getOrCreateSession (os : OrcState) (sessionId : Option String)
    (workDirName : String) (now : Int) : OrcResult :=
  let sidT := sessionId.getD ""
  if sidT ≠ "" then
    match cacheLookup os.activeSessions sidT with
    | some session =>
      if now - session.createdAt < IDLE_BOUND then
        ⟨session, os, false⟩
      else
        restoreOrCreate
          { os with activeSessions := cacheRemove os.activeSessions sidT }
          sessionId workDirName now
    | none => restoreOrCreate os sessionId workDirName now
  else restoreOrCreate os sessionId workDirName now

/-- C6: calling `getOrCreateSession` twice with the same session id while
    a live handle is cached and within the idle bound returns the same
    handle both times, leaves the state untouched, and constructs no
    agent client on either call. -/
theorem getOrCreateSession_idempotent (os : OrcState) (sid : String)
    (s : ChatSession) (wdn1 wdn2 : String) (now1 now2 : Int)
    (hsid : sid ≠ "")
    (hc : cacheLookup os.activeSessions sid = some s)
    (h1 : now1 - s.createdAt < IDLE_BOUND)
    (h2 : now2 - s.createdAt < IDLE_BOUND) :
    getOrCreateSession os (some sid) wdn1 now1 = ⟨s, os, false⟩ ∧
    getOrCreateSession
        (getOrCreateSession os (some sid) wdn1 now1).state (some sid)
        wdn2 now2 = ⟨s, os, false⟩ := by
  have hfst : getOrCreateSession os (some sid) wdn1 now1 =
      ⟨s, os, false⟩ := by
    unfold getOrCreateSession
    simp only [Option.getD]
    rw [if_pos hsid, hc]
    simp only [if_pos h1]
  refine ⟨hfst, ?_⟩
  rw [hfst]
  unfold getOrCreateSession
  simp only [Option.getD]
  rw [if_pos hsid, hc]
  simp only [if_pos h2]

/-- A concrete cached live session for the C6 witness. -/
def cachedSession : ChatSession := ⟨"sid", 3, [], "/p/wd", 0⟩

/-- And a concrete orchestrator state holding it. -/
def cachedOrcState : OrcState :=
  ⟨[("sid", cachedSession)], freshStore, "/s", 4⟩

/-- Witness for C6 at a concrete cached state within the idle bound. -/
theorem getOrCreateSession_idempotent_witness :
    ("sid" ≠ "") ∧
    cacheLookup cachedOrcState.activeSessions "sid" =
      some cachedSession ∧
    ((5 : Int) - cachedSession.createdAt < IDLE_BOUND) ∧
    ((9 : Int) - cachedSession.createdAt < IDLE_BOUND) ∧
    getOrCreateSession cachedOrcState (some "sid") "w1" 5 =
      ⟨cachedSession, cachedOrcState, false⟩ ∧
    getOrCreateSession
        (getOrCreateSession cachedOrcState (some "sid") "w1" 5).state
        (some "sid") "w2" 9 = ⟨cachedSession, cachedOrcState, false⟩ := by
  have h := getOrCreateSession_idempotent cachedOrcState "sid"
    cachedSession "w1" "w2" 5 9 (by decide) rfl (by decide) (by decide)
  exact ⟨by decide, rfl, by decide, by decide, h.1, h.2⟩

/-- The fixed media-type table of `getExtensionFromMimeType`
    (chat-api.ts lines 39-63). -/
def mimeToExt : List (String × String) :=
  [("image/jpeg", ".jpg"), ("image/png", ".png"), ("image/gif", ".gif"),
   ("image/webp", ".webp"), ("image/svg+xml", ".svg"),
   ("video/mp4", ".mp4"), ("video/webm", ".webm"),
   ("video/quicktime", ".mov"), ("video/x-msvideo", ".avi"),
   ("audio/mpeg", ".mp3"), ("audio/wav", ".wav"), ("audio/ogg", ".ogg"),
   ("audio/webm", ".weba"), ("audio/x-m4a", ".m4a"),
   ("application/pdf", ".pdf")]

/-- Lookup `mimeToExt[mimeType] || '.bin'`. -/
def getExtensionFromMimeType (mimeType : String) : String :=
  (((mimeToExt.find? fun e => e.1 = mimeType).map (·.2))).getD ".bin"

/-- Nondeterministic inputs of the ingestion loop, indexed by save
    attempt: `Date.now()`, the random suffix, and whether
    `fs.writeFileSync` throws on that attempt. -/
structure IngestEnv where
  timestampOf : Nat → Nat
  randomIdOf : Nat → String
  failsOf : Nat → Bool

/-- The generated file name `upload_<timestamp>_<random><ext>` of the
    k-th save attempt. -/
def uploadName (ie : IngestEnv) (k : Nat) (mimeType : String) : String :=
  "upload_" ++ toString (ie.timestampOf k) ++ "_" ++ ie.randomIdOf k
    ++ getExtensionFromMimeType mimeType

/-- Embedding of `saveMultimodalFile` (chat-api.ts lines 71-103): ensure
    the working directory exists, generate the unique file name, and
    write the decoded bytes (embedded as the base64 payload string).  A
    throwing write is modelled by `failsOf`; the caller's catch receives
    `none` together with the filesystem as mutated so far. -/
def saveMultimodalFile (ie : IngestEnv) (k : Nat)
    (data mimeType workDir : String) (fs : FS) : Option String × FS :=
  let fs1 := if fsExists fs workDir then fs else mkdirSync fs workDir
  let fileName := uploadName ie k mimeType
  let filePath := workDir ++ "/" ++ fileName
  if ie.failsOf k then (none, fs1)
  else (some fileName, writeFileSync fs1 filePath (.textF data))

/-- Embedding of the per-part ingestion loop (chat-api.ts lines
    430-460): an inline-binary part is saved; on success a text marker
    naming the saved file is spliced immediately before the part and the
    name is recorded; on a write failure the original part is forwarded
    unmodified and the loop continues; non-binary parts pass through.
    Returns (enhancedParts, savedFiles, fs, next attempt index). -/
def ingestParts (ie : IngestEnv) (workDir : String) :
    List GPart → FS → Nat → List GPart × List String × FS × Nat
  | [], fs, k => ([], [], fs, k)
  | part :: rest, fs, k =>
    match part with
    | .inlineData data mimeType =>
      (match saveMultimodalFile ie k data mimeType workDir fs with
       | (some fileName, fs1) =>
         let r := ingestParts ie workDir rest fs1 (k + 1)
         (.text ("[Uploaded file: " ++ fileName ++ "]") ::
            .inlineData data mimeType :: r.1,
          fileName :: r.2.1, r.2.2)
       | (none, fs1) =>
         let r := ingestParts ie workDir rest fs1 (k + 1)
         (.inlineData data mimeType :: r.1, r.2.1, r.2.2))
    | p =>
      let r := ingestParts ie workDir rest fs k
      (p :: r.1, r.2.1, r.2.2)

/-- The `if (workDirPath && requestParts.length > 0)` wrapper
    (chat-api.ts lines 429-464). -/
def enhanceParts (ie : IngestEnv) (workDirPath : Option String)
    (requestParts : List GPart) (fs : FS) :
    List GPart × List String × FS :=
  match workDirPath with
  | some wd =>
    if requestParts.length > 0 then
      let r := ingestParts ie wd requestParts fs 0
      (r.1, r.2.1, r.2.2.1)
    else (requestParts, [], fs)
  | none => (requestParts, [], fs)

/-- Model of `savedFiles.map(f => '@' + f).join(' ')`. -/
def joinSpace : List String → String
  | [] => ""
  | [x] => x
  | x :: rest => x ++ " " ++ joinSpace rest

/-- The stored user message content (chat-api.ts lines 477-483):
    prefixed with the `@filename` marker list when files were saved. -/
def userMessageContentOf (message : String)
    (savedFiles : List String) : String :=
  if savedFiles.length > 0 then
    let fileList := joinSpace (savedFiles.map fun f => "@" ++ f)
    if message ≠ "" then fileList ++ "\n" ++ message else fileList
  else message

lemma jsStartsWith_self (p : String) : jsStartsWith p p = true := by
  unfold jsStartsWith
  exact List.isPrefixOf_iff_prefix.mpr (List.prefix_refl _)

lemma jsStartsWith_append2 (p s t : String) :
    jsStartsWith (p ++ s ++ t) p = true := by
  unfold jsStartsWith
  rw [String.data_append, String.data_append, List.append_assoc]
  exact List.isPrefixOf_iff_prefix.mpr (List.prefix_append _ _)

lemma jsStartsWith_trans (a b c : String)
    (h1 : jsStartsWith a b = true) (h2 : jsStartsWith b c = true) :
    jsStartsWith a c = true := by
  unfold jsStartsWith at *
  exact List.isPrefixOf_iff_prefix.mpr
    (( List.isPrefixOf_iff_prefix.mp h2).trans
      ( List.isPrefixOf_iff_prefix.mp h1))

lemma userMessageContent_startsWith_fileList (message : String)
    (f0 : String) (fsv : List String) :
    jsStartsWith (userMessageContentOf message (f0 :: fsv))
      (joinSpace ((f0 :: fsv).map fun f => "@" ++ f)) = true := by
  simp only [userMessageContentOf]
  rw [if_pos (by simp)]
  by_cases hm : message ≠ ""
  · rw [if_pos hm]
    exact jsStartsWith_append2 _ _ _
  · rw [if_neg hm]
    exact jsStartsWith_self _

lemma fileList_startsWith_head (f0 : String) (fsv : List String) :
    jsStartsWith (joinSpace ((f0 :: fsv).map fun f => "@" ++ f))
      ("@" ++ f0) = true := by
  cases fsv with
  | nil => exact jsStartsWith_self _
  | cons g rest =>
    show jsStartsWith (("@" ++ f0) ++ " " ++
      joinSpace (("@" ++ g) :: rest.map fun f => "@" ++ f)) _ = true
    exact jsStartsWith_append2 _ _ _

/-- C8: the ingestion loop splices a text marker naming the saved file
    immediately before each successfully saved inline-binary part and
    records its name; a per-file write failure forwards the original part
    unmodified while processing continues; and the persisted user message
    content starts with the space-joined `@filename` markers of all saved
    attachments (in particular with the first one). -/
theorem attachment_ingestion (ie : IngestEnv) (wd : String)
    (d mt : String) (rest : List GPart) (fs : FS) (k : Nat)
    (message f0 : String) (fsv : List String) :
    (ie.failsOf k = false →
      ingestParts ie wd (GPart.inlineData d mt :: rest) fs k =
        (GPart.text ("[Uploaded file: " ++ uploadName ie k mt ++ "]") ::
          GPart.inlineData d mt ::
          (ingestParts ie wd rest
            (writeFileSync (if fsExists fs wd then fs else mkdirSync fs wd)
              (wd ++ "/" ++ uploadName ie k mt) (.textF d)) (k + 1)).1,
         uploadName ie k mt ::
          (ingestParts ie wd rest
            (writeFileSync (if fsExists fs wd then fs else mkdirSync fs wd)
              (wd ++ "/" ++ uploadName ie k mt) (.textF d)) (k + 1)).2.1,
         (ingestParts ie wd rest
            (writeFileSync (if fsExists fs wd then fs else mkdirSync fs wd)
              (wd ++ "/" ++ uploadName ie k mt) (.textF d)) (k + 1)).2.2)) ∧
    (ie.failsOf k = true →
      ingestParts ie wd (GPart.inlineData d mt :: rest) fs k =
        (GPart.inlineData d mt ::
          (ingestParts ie wd rest
            (if fsExists fs wd then fs else mkdirSync fs wd) (k + 1)).1,
         (ingestParts ie wd rest
            (if fsExists fs wd then fs else mkdirSync fs wd) (k + 1)).2.1,
         (ingestParts ie wd rest
            (if fsExists fs wd then fs else mkdirSync fs wd)
            (k + 1)).2.2)) ∧
    jsStartsWith (userMessageContentOf message (f0 :: fsv))
      (joinSpace ((f0 :: fsv).map fun f => "@" ++ f)) = true ∧
    jsStartsWith (userMessageContentOf message (f0 :: fsv))
      ("@" ++ f0) = true := by
  refine ⟨?_, ?_, userMessageContent_startsWith_fileList message f0 fsv,
    jsStartsWith_trans _ _ _
      (userMessageContent_startsWith_fileList message f0 fsv)
      (fileList_startsWith_head f0 fsv)⟩
  · intro h
    simp [ingestParts, saveMultimodalFile, h]
  · intro h
    simp [ingestParts, saveMultimodalFile, h]

/-- Concrete ingestion inputs for the C8 witness: the second save
    attempt fails. -/
def wIngest : IngestEnv :=
  ⟨fun k => 100 + k, fun _ => "abc", fun k => decide (k = 1)⟩

/-- Witness for C8: one saved image gets its marker, a failed video save
    forwards the part unmodified, and the stored content is prefixed with
    the marker. -/
theorem attachment_ingestion_witness :
    (wIngest.failsOf 0 = false) ∧
    (wIngest.failsOf 1 = true) ∧
    (ingestParts wIngest "/w"
      [.inlineData "AA" "image/png", .inlineData "BB" "video/mp4",
       .text "go"] ⟨["/w"], []⟩ 0).1 =
      [.text "[Uploaded file: upload_100_abc.png]",
       .inlineData "AA" "image/png", .inlineData "BB" "video/mp4",
       .text "go"] ∧
    jsStartsWith
      (userMessageContentOf "go" ["upload_100_abc.png"])
      "@upload_100_abc.png" = true := by
  have h := attachment_ingestion wIngest "/w" "AA" "image/png"
    [.inlineData "BB" "video/mp4", .text "go"] ⟨["/w"], []⟩ 0
    "go" "upload_100_abc.png" []
  refine ⟨rfl, rfl, ?_, ?_⟩
  · rw [h.1 rfl]
    decide
  · have h4 := h.2.2.2
    rw [show ("@" ++ "upload_100_abc.png") = "@upload_100_abc.png"
      from by decide] at h4
    exact h4

lemma runTurns_succ (env : LoopEnv) (promptId : String)
    (fuel turnCount checkIdx invokeIdx : Nat) (req : List GPart)
    (content : String) :
    runTurns env promptId (fuel + 1) turnCount checkIdx invokeIdx req
        content =
      (if turnCount < MAX_TURNS then
        if env.aborted checkIdx then
          (LoopAction.observeAbort :: postLoop (turnCount + 1), content)
        else
          match consumeStream env promptId
              (env.agent (turnCount + 1) req) (checkIdx + 1) content [] with
          | .halted tr c => (LoopAction.startTurn (turnCount + 1) :: tr, c)
          | .proceed buffer tr c checkIdx' =>
            if buffer.isEmpty then
              (LoopAction.startTurn (turnCount + 1) ::
                (tr ++ postLoop (turnCount + 1)), c)
            else
              (LoopAction.startTurn (turnCount + 1) ::
                (tr ++ (execTools env buffer invokeIdx).1 ++
                  (runTurns env promptId fuel (turnCount + 1) checkIdx'
                    (execTools env buffer invokeIdx).2.2
                    (nextReqOf (execTools env buffer invokeIdx).2.1)
                    c).1),
               (runTurns env promptId fuel (turnCount + 1) checkIdx'
                  (execTools env buffer invokeIdx).2.2
                  (nextReqOf (execTools env buffer invokeIdx).2.1) c).2)
      else (postLoop turnCount, content)) := rfl

/-- Result of one chat turn of the route handler: the outbound frame
    trace, the resulting store, and the loop's returned full response. -/
structure ChatTurnResult where
  trace : List LoopAction
  store : SessionStore
  fullResponse : String
deriving Repr

/-- Embedding of the body of `POST /api/v1/chat` after input validation
    and session resolution (chat-api.ts lines 391-534): write the
    `session` and `messageId` frames, build the request parts, ingest
    attachments, store the user message, run the tool loop, persist the
    turn, and write the terminal `done` frame.  The modelled store and
    loop operations are total, so the catch branch that would write an
    `error` frame on a thrown exception is unreachable in the model. -/
def handleChatTurn (lenv : LoopEnv) (ie : IngestEnv) (st : SessionStore)
    (session : ChatSession) (message : String)
    (parts : Option (List GPart)) (promptId : String)
    (hasConvPath : Bool) (now : Int) : ChatTurnResult :=
  let requestParts : List GPart :=
    match parts with
    | some ps => if ps.length > 0 then ps else [.text message]
    | none => [.text message]
  let workDirPath := getWorkDirPath st session.id
  let e := enhanceParts ie workDirPath requestParts st.fs
  let st1 : SessionStore :=
    ⟨st.sessionsDir, st.projectsDir, st.index, e.2.2⟩
  let userMessageContent := userMessageContentOf message e.2.1
  let st2 := (addMessage st1 session.id
    ⟨"user-" ++ toString now, .user, userMessageContent, now⟩ now).2
  let r := processMessageWithToolLoop lenv promptId e.1
  let st3 := persistTurn st2 session.id promptId message r.2 hasConvPath
    now
  ⟨[.emit (.sessionEv session.id session.workDir),
    .emit (.messageIdEv promptId)]
    ++ r.1 ++ [.emit .doneEv],
   st3, r.2⟩

/-- A concrete loop environment whose abort signal fires after the
    top-of-turn check: the first in-stream read observes the abort. -/
def cexLoopEnv : LoopEnv :=
  ⟨fun _ _ => [.content "hi"],
   fun _ _ => .ok ⟨none, none, []⟩,
   fun n => decide (1 ≤ n)⟩

/-- C2 counterexample: when the client aborts while the loop is consuming
    agent output, the handler DOES emit an `error` frame
    ('Request cancelled') and DOES emit a terminal `done` frame — the
    claim that neither is emitted is false on the code. -/
theorem abort_midstream_cex :
    (handleChatTurn cexLoopEnv wIngest freshStore cachedSession "hello"
        none "p" false 5).trace =
      [.emit (.sessionEv "sid" "/p/wd"), .emit (.messageIdEv "p"),
       .startTurn 1, .observeAbort,
       .emit (.errorOut "Request cancelled"), .emit .doneEv] ∧
    ((handleChatTurn cexLoopEnv wIngest freshStore cachedSession "hello"
        none "p" false 5).trace.any fun a => match a with
      | .emit (.errorOut _) => true
      | _ => false) = true ∧
    ((handleChatTurn cexLoopEnv wIngest freshStore cachedSession "hello"
        none "p" false 5).trace.any fun a => match a with
      | .emit .doneEv => true
      | _ => false) = true := by
  decide

lemma enhanceParts_text (ie : IngestEnv) (wdp : Option String)
    (m : String) (fs : FS) :
    enhanceParts ie wdp [GPart.text m] fs = ([GPart.text m], [], fs) := by
  cases wdp with
  | none => rfl
  | some wd => rfl

/-- C2 (amended): if the cancellation signal is clear at the top-of-turn
    check but aborted when the first agent event is consumed, the handler
    trace is exactly: the `session` and `messageId` frames, the observed
    abort, one `error` frame carrying 'Request cancelled' (and no other
    loop frame, in particular no tool frame), and a terminal `done` frame
    written by the route handler; the returned full response is empty. -/
theorem abort_midstream_amended (lenv : LoopEnv) (ie : IngestEnv)
    (st : SessionStore) (session : ChatSession) (message : String)
    (promptId : String) (hasConvPath : Bool) (now : Int)
    (h0 : lenv.aborted 0 = false) (h1 : lenv.aborted 1 = true)
    (hag : lenv.agent 1 [GPart.text message] ≠ []) :
    (handleChatTurn lenv ie st session message none promptId hasConvPath
        now).trace =
      [.emit (.sessionEv session.id session.workDir),
       .emit (.messageIdEv promptId),
       .startTurn 1, .observeAbort,
       .emit (.errorOut "Request cancelled"), .emit .doneEv] ∧
    (handleChatTurn lenv ie st session message none promptId hasConvPath
        now).fullResponse = "" := by
  obtain ⟨ev, evrest, hev⟩ := List.exists_cons_of_ne_nil hag
  have hloop : processMessageWithToolLoop lenv promptId
      [GPart.text message] =
      ([.startTurn 1, .observeAbort,
        .emit (.errorOut "Request cancelled")], "") := by
    show runTurns lenv promptId MAX_TURNS 0 0 0 [GPart.text message] "" = _
    rw [show (MAX_TURNS : Nat) = 49 + 1 from rfl, runTurns_succ]
    rw [if_pos (show (0 : Nat) < MAX_TURNS from by decide)]
    simp only [h0, Bool.false_eq_true, if_false, Nat.zero_add, hev]
    simp only [consumeStream, h1, if_true]
  have he := enhanceParts_text ie (getWorkDirPath st session.id) message
    st.fs
  constructor
  · show [LoopAction.emit (.sessionEv session.id session.workDir),
      .emit (.messageIdEv promptId)]
      ++ (processMessageWithToolLoop lenv promptId
        (enhanceParts ie (getWorkDirPath st session.id)
          [GPart.text message] st.fs).1).1
      ++ [.emit .doneEv] = _
    rw [he]
    dsimp only
    rw [hloop]
    rfl
  · show (processMessageWithToolLoop lenv promptId
      (enhanceParts ie (getWorkDirPath st session.id)
        [GPart.text message] st.fs).1).2 = ""
    rw [he]
    dsimp only
    rw [hloop]

/-- Witness for C2 (amended) at the concrete aborting environment. -/
theorem abort_midstream_amended_witness :
    (cexLoopEnv.aborted 0 = false) ∧
    (cexLoopEnv.aborted 1 = true) ∧
    (cexLoopEnv.agent 1 [GPart.text "hello"] ≠ []) ∧
    (handleChatTurn cexLoopEnv wIngest oneMsgStore cachedSession "hello"
        none "p" true 5).trace =
      [.emit (.sessionEv "sid" "/p/wd"), .emit (.messageIdEv "p"),
       .startTurn 1, .observeAbort,
       .emit (.errorOut "Request cancelled"), .emit .doneEv] := by
  have h := abort_midstream_amended cexLoopEnv wIngest oneMsgStore
    cachedSession "hello" "p" true 5 rfl rfl (by simp [cexLoopEnv])
  exact ⟨rfl, rfl, by simp [cexLoopEnv], h.1⟩
